import Mathlib

/-!
Shallow embedding of the core cycle/energy/profit engine of the
tou-schedule-editor repository (backend/services/cycles.py and
old/dist_package_old/backend/services/economics.py), together with proofs
about it.  Python floats are modelled as exact rationals; the float guard
constants 1e-9 and 1e-6 appearing in the source are kept as the exact
rationals 1/10^9 and 1/10^6.  Python `None` is modelled by `Option`,
Python dicts that preserve insertion order by association lists, and
Python sets of hours by lists read up to membership.  Date strings
"YYYY-MM-DD" are modelled by triples of naturals and month strings
"YYYY-MM" by pairs of naturals (both encodings are bijective to the
strings the source manipulates).
-/

namespace TouCycles

/-- The float literal 1e-9 used as a division guard and clamp tolerance in
cycles.py. -/
def eps9 : ℚ := 1 / 1000000000

/-- The float literal 1e-6 used as a clipping tolerance in cycles.py. -/
def eps6 : ℚ := 1 / 1000000

/-- A calendar date (year, month, day), the model of a "YYYY-MM-DD" key. -/
abbrev DateKey := Nat × Nat × Nat

/-- A calendar month (year, month), the model of a "YYYY-MM" key. -/
abbrev YmKey := Nat × Nat

/-- `energy_formula` argument: one of the two conversion conventions.
The source validates the string and falls back to "physics"; we embed the
already-validated value. -/
inductive EnergyFormula where
  | physics
  | sample
deriving DecidableEq, Repr

/-- Hourly operation label, the model of the strings 充 / 放 / 待机. -/
inductive Op where
  | charge
  | discharge
  | standby
deriving DecidableEq, Repr

/-- Association-list find, the model of a Python dict lookup
(`d.get(k)`); dicts preserve insertion order, which the list keeps. -/
def afind {κ ν : Type} [DecidableEq κ] (l : List (κ × ν)) (k : κ) : Option ν :=
  (l.find? (fun e => e.1 = k)).map (·.2)

/-- In-place update of the entry at key `k` (Python mutates the dict
value object; list position is preserved). -/
def aupdate {κ ν : Type} [DecidableEq κ] (l : List (κ × ν)) (k : κ) (v : ν) :
    List (κ × ν) :=
  l.map (fun e => if e.1 = k then (e.1, v) else e)

/-! ## Grid-side energy conversion formulas

From `compute_window_avg_days` (the inner `_cycle_contrib`, cycles.py
lines 753-758) and from `build_step15_power_series` (lines 2270-2281).
Arguments: `base` battery-side energy, `d` the DOD value used by the
function, `eta` the single-side efficiency. -/

/-- Window-average calculator, charge direction (lines 754 and 757). -/
def cycle_e_in_grid (f : EnergyFormula) (base d eta : ℚ) : ℚ :=
  match f with
  | .physics => base * d / max eta eps9
  | .sample => base / max d eps9 * eta

/-- Window-average calculator, discharge direction (lines 755 and 758). -/
def cycle_e_out_grid (f : EnergyFormula) (base d eta : ℚ) : ℚ :=
  match f with
  | .physics => base * d * eta
  | .sample => base / max d eps9 / max eta eps9

/-- 15-minute simulator, charge direction (lines 2273 and 2275). -/
def step15_e_in_grid (f : EnergyFormula) (base d eta : ℚ) : ℚ :=
  match f with
  | .physics => base * (d / max eta eps9)
  | .sample => base * (eta / max d eps9)

/-- 15-minute simulator, discharge direction (lines 2279 and 2281).
Note the guard is applied to the product `d * eta` as a whole. -/
def step15_e_out_grid (f : EnergyFormula) (base d eta : ℚ) : ℚ :=
  match f with
  | .physics => base * (d * eta)
  | .sample => base * (1 / max (d * eta) eps9)

/-- Full-cycle ratio of a window direction:
`min(e_grid / cap if cap > 0 else 0.0, 1.0)` (lines 760-761, and
843-844 / 865-866 of `_window_metrics`). -/
def full_ratio_of (e_grid cap : ℚ) : ℚ :=
  min (if 0 < cap then e_grid / cap else 0) 1

/-! ## Limit Resolver (`compute_limit_info`, lines 131-192) -/

/-- One row of the 15-minute load series.  `load = none` models a NaN
load value (dropped by `dropna`). -/
structure LoadPoint where
  year : Nat
  month : Nat
  day : Nat
  hour : Nat
  minute : Nat
  load : Option ℚ
deriving DecidableEq, Repr

/-- The month key `ts.strftime("%Y-%m")` of a point. -/
def ymOf (p : LoadPoint) : YmKey := (p.year, p.month)

/-- Valid (month-key, load) pairs after `dropna(subset=["load_kw"])`. -/
def validLoads (series : List LoadPoint) : List (YmKey × ℚ) :=
  series.filterMap (fun p => p.load.map (fun v => (ymOf p, v)))

/-- Maximum of a list of rationals (`groupby(...).max()` on one group);
`none` on the empty list. -/
def qmax : List ℚ → Option ℚ
  | [] => none
  | h :: t => some (t.foldl max h)

/-- Lexicographic order on month keys; pandas `groupby` on "YYYY-MM"
strings yields groups in this (string = chronological) order. -/
def ymLe (a b : YmKey) : Prop :=
  a.1 < b.1 ∨ (a.1 = b.1 ∧ a.2 ≤ b.2)

instance : DecidableRel ymLe := fun a b => by
  unfold ymLe; infer_instance

/-- Loads belonging to one month group. -/
def monthLoads (valid : List (YmKey × ℚ)) (k : YmKey) : List ℚ :=
  valid.filterMap (fun e => if e.1 = k then some e.2 else none)

/-- The per-month maximum-demand table: month keys in sorted order, each
mapped to the maximum 15-minute load of that month. -/
def monthlyDemandMax (valid : List (YmKey × ℚ)) : List (YmKey × ℚ) :=
  (List.insertionSort ymLe (valid.map Prod.fst).dedup).filterMap
    (fun k => (qmax (monthLoads valid k)).map (fun v => (k, v)))

/-- Python `str.strip()`: drop leading and trailing whitespace. -/
def pyStrip (s : String) : String :=
  ⟨((s.data.dropWhile Char.isWhitespace).reverse.dropWhile
    Char.isWhitespace).reverse⟩

/-- Result of `compute_limit_info`.  Note strings are placeholders for
the human-readable Chinese notes of the source (their content is
diagnostic only). -/
structure LimitInfo where
  limit_mode : String
  monthly_demand_max : List (YmKey × ℚ)
  transformer_limit_kw : Option ℚ
  notes : List String
deriving DecidableEq, Repr

/-- `compute_limit_info` (cycles.py lines 131-192).  `metering_mode` is
the raw argument (`None` or any string); `(metering_mode or
"monthly_demand_max").strip()` is modelled with `Option.getD` and
`String.trim`. -/
def compute_limit_info (series : List LoadPoint) (metering_mode : Option String)
    (transformer_capacity_kva transformer_power_factor : Option ℚ) : LimitInfo :=
  let mode0 := pyStrip (metering_mode.getD "monthly_demand_max")
  let mode1 := if mode0 = "monthly_demand_max" ∨ mode0 = "transformer_capacity"
    then mode0 else "monthly_demand_max"
  let valid := validLoads series
  let notes0 : List String := if series = [] then ["empty-series"] else []
  let monthly := monthlyDemandMax valid
  if mode1 = "transformer_capacity" then
    match transformer_capacity_kva, transformer_power_factor with
    | some kva, some pf =>
        { limit_mode := "transformer_capacity", monthly_demand_max := monthly,
          transformer_limit_kw := some (kva * pf), notes := notes0 }
    | _, _ =>
        { limit_mode := "monthly_demand_max", monthly_demand_max := monthly,
          transformer_limit_kw := none,
          notes := notes0 ++ ["transformer-params-missing-fallback"] }
  else
    { limit_mode := "monthly_demand_max", monthly_demand_max := monthly,
      transformer_limit_kw := none, notes := notes0 }

/-! ## Window Extractor (`_hour_runs_from_ops`, `_merge_head_tail_runs`,
`build_daily_cycles_masks`, lines 266-368) -/

/-- A maximal contiguous run of one non-standby kind: (kind, hour list in
ascending scan order). -/
abbrev Run := Op × List Nat

/-- Core scan of `_hour_runs_from_ops`: walk (hour, label) pairs carrying
the current open run. -/
def hourRunsCore : List (Nat × Op) → Option Run → List Run
  | [], none => []
  | [], some r => [r]
  | (h, k) :: rest, cur =>
      if k = Op.standby then
        match cur with
        | none => hourRunsCore rest none
        | some r => r :: hourRunsCore rest none
      else
        match cur with
        | none => hourRunsCore rest (some (k, [h]))
        | some (ck, hs) =>
            if ck = k then hourRunsCore rest (some (ck, hs ++ [h]))
            else (ck, hs) :: hourRunsCore rest (some (k, [h]))

/-- `_merge_head_tail_runs` (lines 266-279): optionally merge first and
last run when of the same kind; `sorted(set(last + first))`. -/
def merge_head_tail_runs (runs : List Run) (enabled : Bool) : List Run :=
  if !enabled then runs
  else match runs with
  | [] => runs
  | [_] => runs
  | first :: rest =>
      match rest.getLast? with
      | none => runs
      | some last =>
          if first.1 = last.1 then
            (first.1, List.insertionSort (· ≤ ·) (last.2 ++ first.2).dedup)
              :: rest.dropLast
          else runs

/-- `_hour_runs_from_ops` (lines 282-305).  The source indexes
`ops[h] for h in range(24)`; callers always supply 24 labels, and the
embedding walks the supplied list with its indices as hours. -/
def hour_runs_from_ops (ops : List Op) (wrap_across_midnight : Bool) : List Run :=
  merge_head_tail_runs (hourRunsCore ops.enum none) wrap_across_midnight

/-- One row of the runs debug trace (lines 336-346). -/
structure DebugRun where
  date : DateKey
  seq : Nat
  kind : Op
  start_hour : Option Nat
  end_hour : Option Nat
  length_hours : Nat
  filtered_by_threshold : Bool
  merged_to : Option String
  wrap_across_midnight : Bool
deriving DecidableEq, Repr

/-- Masks of one window slot. -/
structure WindowHours where
  charge_hours : Finset Nat
  discharge_hours : Finset Nat
deriving DecidableEq

/-- Masks of one day: two window slots. -/
structure DayMask where
  c1 : WindowHours
  c2 : WindowHours
deriving DecidableEq

/-- Accumulator of the assignment loop of `build_daily_cycles_masks`
(lines 350-363). -/
structure MaskAcc where
  c1c : Finset Nat
  c1d : Finset Nat
  c2c : Finset Nat
  c2d : Finset Nat
  merged : Nat
deriving DecidableEq

/-- The assignment loop over surviving runs, carrying the 0-based index
`i`: runs with `i < 2` go to c1, the rest to c2; `i ≥ 4` increments the
merged counter. -/
def assignRuns (i : Nat) (acc : MaskAcc) : List Run → MaskAcc
  | [] => acc
  | (k, hrs) :: rest =>
      let acc1 := if 4 ≤ i then { acc with merged := acc.merged + 1 } else acc
      let acc2 :=
        match k, decide (i < 2) with
        | Op.charge, true => { acc1 with c1c := acc1.c1c ∪ hrs.toFinset }
        | Op.charge, false => { acc1 with c2c := acc1.c2c ∪ hrs.toFinset }
        | Op.discharge, true => { acc1 with c1d := acc1.c1d ∪ hrs.toFinset }
        | Op.discharge, false => { acc1 with c2d := acc1.c2d ∪ hrs.toFinset }
        | Op.standby, _ => acc1
      assignRuns (i + 1) acc2 rest

/-- Whether a run is dropped by the noise threshold:
`len(hrs) * 60 < merge_threshold_minutes` (line 335). -/
def runFiltered (threshold : Nat) (r : Run) : Bool :=
  r.2.length * 60 < threshold

/-- The debug row for one (pre-filter) run, including the final value of
its `merged_to` field.  In the source `merged_to` is patched by a second
loop over surviving-run indices; its net effect is: the row of `seq = i`
is marked (with "c1" for `i < 2` and "c2" otherwise) exactly when it
survived the filter and `i` is below the surviving-run count. -/
def mkDebugRun (date : DateKey) (threshold : Nat) (wrap : Bool)
    (survCount : Nat) (iAndRun : Nat × Run) : DebugRun :=
  let i := iAndRun.1
  let r := iAndRun.2
  { date := date, seq := i, kind := r.1,
    start_hour := r.2.min?,
    end_hour := (r.2.max?).map (· + 1),
    length_hours := r.2.length,
    filtered_by_threshold := runFiltered threshold r,
    merged_to :=
      if ¬ runFiltered threshold r ∧ i < survCount then
        some (if i < 2 then "c1" else "c2")
      else none,
    wrap_across_midnight := wrap }

/-- `build_daily_cycles_masks` for one day of the `daily_ops` dict. -/
def buildDayMask (date : DateKey) (ops : List Op) (threshold : Nat)
    (wrap : Bool) : DayMask × Nat × List DebugRun :=
  let runs_pre := hour_runs_from_ops ops wrap
  let runs_flt := runs_pre.filter (fun r => ¬ runFiltered threshold r)
  let dbg := runs_pre.enum.map (mkDebugRun date threshold wrap runs_flt.length)
  let acc := assignRuns 0 ⟨∅, ∅, ∅, ∅, 0⟩ runs_flt
  ({ c1 := { charge_hours := acc.c1c, discharge_hours := acc.c1d },
     c2 := { charge_hours := acc.c2c, discharge_hours := acc.c2d } },
   acc.merged, dbg)

/-- `build_daily_cycles_masks` (lines 308-368): iterate the days of
`daily_ops` in dict order, building masks and accumulating the merged
counter and the debug trace. -/
def build_daily_cycles_masks (daily_ops : List (DateKey × List Op))
    (merge_threshold_minutes : Nat) (wrap_across_midnight : Bool) :
    List (DateKey × DayMask) × Nat × List DebugRun :=
  daily_ops.foldl
    (fun st day =>
      let r := buildDayMask day.1 day.2 merge_threshold_minutes
        wrap_across_midnight
      (st.1 ++ [(day.1, r.1)], st.2.1 + r.2.1, st.2.2 ++ r.2.2))
    ([], 0, [])

/-! ## Window-Average Cycle Calculator (`compute_window_avg_days`,
lines 660-774) -/

/-- Storage configuration after the `float(storage_cfg.get(...) or ...)`
extraction of lines 680-686 (the dict-coalescing itself is boundary
behaviour; the fields hold the extracted values). -/
structure StorageCfgWA where
  capacity_kwh : ℚ
  c_rate : ℚ
  single_side_efficiency : ℚ
  reserve_charge_kw : ℚ
  reserve_discharge_kw : ℚ
deriving DecidableEq, Repr

/-- One element of the per-day result list. -/
structure DayResult where
  date : DateKey
  cycles : ℚ
  is_valid : Bool
  point_count : Nat
deriving DecidableEq, Repr

/-- The module-level globals of cycles.py relevant to name resolution:
line 28 defines `dod: float = 1.0`; no module-level binding named
`effective_dod` exists anywhere in the module. -/
def module_globals : List (String × ℚ) := [("dod", 1)]

/-- Python global-name resolution against the module globals. -/
def py_global (name : String) : Option ℚ := afind module_globals name

/-- Day limit of the window-average calculator (lines 702-705): in
transformer mode a truthy (non-zero, non-None) transformer limit wins,
else the monthly maximum (0.0 when the month is absent). -/
def waDayLimit (limit : LimitInfo) (ym : YmKey) : ℚ :=
  let monthly := (afind limit.monthly_demand_max ym).getD 0
  if limit.limit_mode = "transformer_capacity" then
    match limit.transformer_limit_kw with
    | some v => if v ≠ 0 then v else monthly
    | none => monthly
  else monthly

/-- Points of one calendar day with a present load value
(`day_sub` of lines 708-710, after the global `dropna`). -/
def daySub (series : List LoadPoint) (d : DateKey) : List (DateKey × Nat × ℚ) :=
  series.filterMap (fun p =>
    if (p.year, p.month, p.day) = d then
      p.load.map (fun v => ((p.year, p.month, p.day), p.hour, v))
    else none)

/-- `_window_energy` (lines 732-747): select the day points whose hour is
in the window's hour list, average their load, and convert to a base
battery-side energy. -/
def window_energy (day_sub : List (DateKey × Nat × ℚ)) (hour_list : List Nat)
    (limit_kw reserve_ch reserve_dis : ℚ) (is_charge : Bool) : ℚ :=
  if hour_list = [] then 0
  else
    let sel := day_sub.filter (fun p => p.2.1 ∈ hour_list)
    if sel = [] then 0
    else
      let avg_load := (sel.map (·.2.2)).sum / sel.length
      let hours := (sel.length : ℚ) * (1 / 4)
      let allow := if is_charge then limit_kw - reserve_ch - avg_load
        else avg_load - reserve_dis
      max 0 allow * hours

/-- `_cycle_contrib` (lines 749-762): both directions of one window,
grid-side conversion, full ratios, and the symmetric minimum. -/
def cycle_contrib (day_sub : List (DateKey × Nat × ℚ)) (w : WindowHours)
    (limit_kw : ℚ) (cfg : StorageCfgWA) (d : ℚ) (formula : EnergyFormula) : ℚ :=
  let e_in_base := window_energy day_sub (w.charge_hours.sort (· ≤ ·)) limit_kw
    cfg.reserve_charge_kw cfg.reserve_discharge_kw true
  let e_out_base := window_energy day_sub (w.discharge_hours.sort (· ≤ ·)) limit_kw
    cfg.reserve_charge_kw cfg.reserve_discharge_kw false
  let e_in_grid := cycle_e_in_grid formula e_in_base d cfg.single_side_efficiency
  let e_out_grid := cycle_e_out_grid formula e_out_base d cfg.single_side_efficiency
  min (full_ratio_of e_in_grid cfg.capacity_kwh)
    (full_ratio_of e_out_grid cfg.capacity_kwh)

/-- The per-day loop body of `compute_window_avg_days` (lines 700-770),
parameterised by the DOD value `d` the calculator would use. -/
def waDay (series : List LoadPoint) (cfg : StorageCfgWA) (limit : LimitInfo)
    (formula : EnergyFormula) (d : ℚ) (entry : DateKey × DayMask) : DayResult :=
  let date := entry.1
  let limit_kw := waDayLimit limit (date.1, date.2.1)
  let day_sub := daySub series date
  let point_count := day_sub.length
  let has_positive_load := decide (∃ p ∈ day_sub, 0 < p.2.2)
  let is_valid := 0 < point_count ∧ has_positive_load
  if limit_kw ≤ 0 ∨ cfg.capacity_kwh ≤ 0 then
    { date := date, cycles := 0, is_valid := is_valid, point_count := point_count }
  else
    { date := date,
      cycles := cycle_contrib day_sub entry.2.c1 limit_kw cfg d formula
        + cycle_contrib day_sub entry.2.c2 limit_kw cfg d formula,
      is_valid := is_valid, point_count := point_count }

/-- Lexicographic order on date keys, the sort order of line 773. -/
def dateLe (a b : DateKey) : Prop :=
  a.1 < b.1 ∨ (a.1 = b.1 ∧ (a.2.1 < b.2.1 ∨ (a.2.1 = b.2.1 ∧ a.2.2 ≤ b.2.2)))

instance : DecidableRel dateLe := fun a b => by
  unfold dateLe; infer_instance

/-- Body of `compute_window_avg_days` after name resolution has
succeeded, with `d` bound to the resolved value of `effective_dod`. -/
def compute_window_avg_days_body (series : List LoadPoint)
    (daily_masks : List (DateKey × DayMask)) (cfg : StorageCfgWA)
    (limit : LimitInfo) (formula : EnergyFormula) (d : ℚ) : List DayResult :=
  if series = [] then []
  else List.insertionSort (fun a b => dateLe a.date b.date)
    (daily_masks.map (waDay series cfg limit formula d))

/-- `compute_window_avg_days` (lines 660-774).  Line 684 executes
`dod = effective_dod` before anything else can return; `effective_dod`
is not defined in the function body nor at module scope (the module-level
fallback of line 28 is named `dod`), so the lookup is a Python
`NameError`, modelled as `Except.error`. -/
def compute_window_avg_days (series : List LoadPoint)
    (daily_masks : List (DateKey × DayMask)) (cfg : StorageCfgWA)
    (limit : LimitInfo) (formula : EnergyFormula) : Except String (List DayResult) :=
  match py_global "effective_dod" with
  | none => Except.error "NameError: name effective_dod is not defined"
  | some d =>
      Except.ok (compute_window_avg_days_body series daily_masks cfg limit formula d)

/-! ## Price-priority discharge allocation
(`_allocate_discharge_by_price`, lines 2436-2527) -/

/-- One discharge-labelled 15-minute point handed to the allocator.
`max_e_out_main_kwh` is the pre-computed per-point physical upper bound
(the source falls back to `e_out_main_kwh` when that column is absent;
the field holds whichever value the row lookup yields). -/
structure DisPoint where
  ts : Nat
  load_kw : ℚ
  max_e_out_main_kwh : ℚ
deriving DecidableEq, Repr

/-- Price of a timestamp: `df.index.map(price_series)` followed by
`fillna(0.0)`. -/
def priceAt (price_series : List (Nat × ℚ)) (t : Nat) : ℚ :=
  (afind price_series t).getD 0

/-- Sort order of line 2484: price descending, timestamp ascending. -/
def allocLe (a b : DisPoint × ℚ) : Prop :=
  b.2 < a.2 ∨ (a.2 = b.2 ∧ a.1.ts ≤ b.1.ts)

instance : DecidableRel allocLe := fun a b => by
  unfold allocLe; infer_instance

/-- Final `sort_index()` order of line 2525: timestamp ascending. -/
def allocTsLe (a b : (DisPoint × ℚ) × ℚ) : Prop := a.1.1.ts ≤ b.1.1.ts

instance : DecidableRel allocTsLe := fun a b => by
  unfold allocTsLe; infer_instance

/-- Per-point cap of lines 2502-2507:
`max(0, min(max_e_out_main_kwh, max(load - reserve_dis, 0) * 0.25))`. -/
def point_cap (reserve_dis : ℚ) (p : DisPoint) : ℚ :=
  max 0 (min p.max_e_out_main_kwh (max (p.load_kw - reserve_dis) 0 * (1 / 4)))

/-- The greedy loop of lines 2495-2516 over the price-sorted points.  The
source `break`s when the remaining budget drops to `<= 1e-6` and leaves
the initialised 0.0 allocations in place; the embedding keeps walking and
emits those zeros, which is the same result. -/
def allocGo (reserve_dis : ℚ) : ℚ → List (DisPoint × ℚ) → List ((DisPoint × ℚ) × ℚ)
  | _, [] => []
  | rem, x :: xs =>
      if rem ≤ eps6 then (x, 0) :: allocGo reserve_dis rem xs
      else
        let cap := point_cap reserve_dis x.1
        if cap ≤ eps9 then (x, 0) :: allocGo reserve_dis rem xs
        else (x, min cap rem) :: allocGo reserve_dis (rem - min cap rem) xs

/-- `_allocate_discharge_by_price` (lines 2436-2527): attach prices, sort
price-descending (timestamp-ascending on ties), allocate greedily up to
each point's cap until the budget is exhausted, restore timestamp order.
Each output element is ((point, price), allocated_energy_kwh). -/
def allocate_discharge_by_price (discharge_points : List DisPoint)
    (max_discharge_energy : ℚ) (reserve_dis : ℚ)
    (price_series : List (Nat × ℚ)) : List ((DisPoint × ℚ) × ℚ) :=
  if discharge_points = [] ∨ max_discharge_energy ≤ 0 then
    discharge_points.map (fun p => ((p, priceAt price_series p.ts), 0))
  else
    let sorted := List.insertionSort allocLe
      (discharge_points.map (fun p => (p, priceAt price_series p.ts)))
    List.insertionSort allocTsLe (allocGo reserve_dis max_discharge_energy sorted)

/-! ## Economics Calculator (economics.py) -/

/-- `YearlyCashflowItem` (economics.py lines 19-27); `year_index` is an
int in the source, held here as a rational. -/
structure YearlyCashflowItem where
  year_index : ℚ
  year_revenue : ℚ
  annual_om_cost : ℚ
  cell_replacement_cost : ℚ
  net_cashflow : ℚ
  cumulative_net_cashflow : ℚ
deriving DecidableEq, Repr

/-- Python `round` to an integer: nearest, ties to even. -/
def pyRoundInt (q : ℚ) : ℤ :=
  let n := ⌊q⌋
  let r := q - n
  if r < 1 / 2 then n
  else if 1 / 2 < r then n + 1
  else if n % 2 = 0 then n else n + 1

/-- Python `round(q, 2)`. -/
def pyRound2 (q : ℚ) : ℚ := (pyRoundInt (q * 100) : ℚ) / 100

/-- Loop of `compute_static_payback` (economics.py lines 143-162). -/
def paybackGo (capex_total : ℚ) (cumulative : ℚ) :
    List YearlyCashflowItem → Option ℚ
  | [] => none
  | cf :: rest =>
      let prev := cumulative
      let cum := cumulative + cf.net_cashflow
      if capex_total ≤ cum then
        if 0 < cf.net_cashflow then
          some (pyRound2 (cf.year_index - 1 + (capex_total - prev) / cf.net_cashflow))
        else some cf.year_index
      else paybackGo capex_total cum rest

/-- `compute_static_payback` (economics.py lines 126-162). -/
def compute_static_payback (cashflows : List YearlyCashflowItem)
    (capex_total : ℚ) : Option ℚ :=
  if capex_total ≤ 0 then some 0
  else paybackGo capex_total 0 cashflows

/-! ## 15-Minute Power/SOC Simulator
(`build_step15_power_series`, cycles.py lines 2060-2433)

The embedding starts after the boundary work of lines 2080-2130: the
series is already joined, NaN-dropped and chronologically sorted, and the
configuration floats are already extracted from the dicts.  The `price`
and `tier` columns are pure pass-through diagnostics and are omitted from
the record. -/

/-- Storage/limit configuration of the simulator (lines 2114-2155). -/
structure Step15Cfg where
  month_max : List (YmKey × ℚ)
  transformer_limit_kw : Option ℚ
  limit_mode : String
  capacity_kwh : ℚ
  c_rate : ℚ
  single_side_efficiency : ℚ
  depth_of_discharge : ℚ
  soc_min : ℚ
  soc_max : ℚ
  reserve_charge_kw : ℚ
  reserve_discharge_kw : ℚ
  initial_soc : Option ℚ
  energy_formula : EnergyFormula
deriving DecidableEq, Repr

/-- `p_max = cap * c_rate if cap > 0 and c_rate > 0 else 0.0` (2135). -/
def s15_p_max (cfg : Step15Cfg) : ℚ :=
  if 0 < cfg.capacity_kwh ∧ 0 < cfg.c_rate then cfg.capacity_kwh * cfg.c_rate
  else 0

/-- `effective_dod = max(0.0, min(dod_cfg, soc_max - soc_min))` (2148). -/
def s15_eff_dod (cfg : Step15Cfg) : ℚ :=
  max 0 (min cfg.depth_of_discharge (cfg.soc_max - cfg.soc_min))

/-- Lines 2228-2229: `initial_soc = float(storage_cfg.get("initial_soc")
or soc_min)` (so a configured 0 also falls back to `soc_min`), then
clamped into `[soc_min, soc_max]`. -/
def s15_init_soc (cfg : Step15Cfg) : ℚ :=
  let i := match cfg.initial_soc with
    | none => cfg.soc_min
    | some x => if x = 0 then cfg.soc_min else x
  max cfg.soc_min (min cfg.soc_max i)

/-- `_day_limit_kw` (lines 2122-2129); the transformer value is used only
when truthy. -/
def s15_day_limit (cfg : Step15Cfg) (ym : YmKey) : ℚ :=
  let monthly := (afind cfg.month_max ym).getD 0
  if cfg.limit_mode = "transformer_capacity" then
    match cfg.transformer_limit_kw with
    | some v => if v ≠ 0 then v else monthly
    | none => monthly
  else monthly

/-- `dt_hours = 0.25` (2153). -/
def dt_hours : ℚ := 1 / 4

/-- One joined 15-minute row: date, hour of day, load. -/
structure SimPoint where
  date : DateKey
  hour : Nat
  load_kw : ℚ
deriving DecidableEq, Repr

/-- `_op_for_ts` (lines 2162-2166). -/
def op_for (daily_ops : List (DateKey × List Op)) (p : SimPoint) : Option Op :=
  ((afind daily_ops p.date).getD []).get? p.hour

/-- One window-debug row as consumed by the simulator (lines 2170-2205).
`full_ratio_main_step15` / `full_ratio_main_plain` model the row values
under the keys `full_ratio_{main_formula}_step15` and
`full_ratio_{main_formula}` (absent key or None value = `none`); the
comma-separated `hour_list` string is held as the parsed hour list. -/
structure WinDebugRow where
  date : DateKey
  window : String
  kind : String
  hour_list : List Nat
  full_ratio_main_step15 : Option ℚ
  full_ratio_main_plain : Option ℚ
deriving DecidableEq, Repr

/-- A (date, window) key of the simulator's window-target dict. -/
abbrev WKey := DateKey × String

/-- One window target: hour sets (lists read up to membership, the model
of Python sets) and the parsed main-formula full ratio. -/
structure WTgt where
  charge_hours : List Nat
  discharge_hours : List Nat
  full_ratio_main : ℚ
deriving DecidableEq, Repr

/-- `tgt["charge_hours"].update(hours_set)` / discharge analogue
(lines 2200-2203). -/
def wtgtAddHours (kind : String) (hours : List Nat) (t : WTgt) : WTgt :=
  if kind = "charge" then { t with charge_hours := t.charge_hours ++ hours }
  else if kind = "discharge" then
    { t with discharge_hours := t.discharge_hours ++ hours }
  else t

/-- Lines 2170-2205: build the `(date, window) -> target` dict in row
order.  The ratio under the step15 key wins over the plain key, a row
with neither contributes 1.0, and repeated rows for one window are merged
with `min`. -/
def build_window_targets (rows : List WinDebugRow) : List (WKey × WTgt) :=
  rows.foldl
    (fun acc row =>
      let window := row.window.toLower
      let kind := row.kind.toLower
      let full_main :=
        row.full_ratio_main_step15.getD (row.full_ratio_main_plain.getD 1)
      if window ≠ "c1" ∧ window ≠ "c2" then acc
      else
        let key : WKey := (row.date, window)
        match afind acc key with
        | none =>
            acc ++ [(key, wtgtAddHours kind row.hour_list
              { charge_hours := [], discharge_hours := [],
                full_ratio_main := full_main })]
        | some t =>
            aupdate acc key (wtgtAddHours kind row.hour_list
              { t with full_ratio_main := min t.full_ratio_main full_main }))
    []

/-- `_window_key` (lines 2207-2221): the first (insertion-order) window of
the point's date whose hour set for the point's op contains its hour. -/
def window_key (targets : List (WKey × WTgt)) (p : SimPoint) (op : Option Op) :
    Option WKey :=
  (targets.find? (fun kt =>
    decide (kt.1.1 = p.date) &&
    match op with
    | some Op.charge => decide (p.hour ∈ kt.2.charge_hours)
    | some Op.discharge => decide (p.hour ∈ kt.2.discharge_hours)
    | _ => false)).map (·.1)

/-- The per-point quantity bundle that every scaling step of the source
multiplies uniformly (battery power, both formulas' energies, both
formulas' grid-effect powers). -/
structure PQ where
  p_batt : ℚ
  e_in_phys : ℚ
  e_out_phys : ℚ
  e_in_sample : ℚ
  e_out_sample : ℚ
  p_grid_phys : ℚ
  p_grid_sample : ℚ
deriving DecidableEq, Repr

/-- Uniform scaling (`*= scale` on all seven quantities). -/
def scalePQ (s : ℚ) (q : PQ) : PQ :=
  ⟨q.p_batt * s, q.e_in_phys * s, q.e_out_phys * s, q.e_in_sample * s,
   q.e_out_sample * s, q.p_grid_phys * s, q.p_grid_sample * s⟩

/-- Lines 2252-2262: raw battery power, bounded by `p_max` when that is
positive; negative when discharging. -/
def raw_p_batt (cfg : Step15Cfg) (op : Option Op) (load limit : ℚ) : ℚ :=
  match op with
  | some Op.charge =>
      let raw := max (limit - cfg.reserve_charge_kw - load) 0
      if 0 < s15_p_max cfg then min raw (s15_p_max cfg) else raw
  | some Op.discharge =>
      let raw := max (load - cfg.reserve_discharge_kw) 0
      if 0 < s15_p_max cfg then -(min raw (s15_p_max cfg)) else -raw
  | _ => 0

/-- Charge-side energies of the quantum (lines 2264-2275). -/
def raw_e_in (cfg : Step15Cfg) (f : EnergyFormula) (p_batt : ℚ) : ℚ :=
  if 0 < p_batt then
    step15_e_in_grid f (p_batt * dt_hours) (s15_eff_dod cfg)
      cfg.single_side_efficiency
  else 0

/-- Discharge-side energies of the quantum (lines 2276-2281). -/
def raw_e_out (cfg : Step15Cfg) (f : EnergyFormula) (p_batt : ℚ) : ℚ :=
  if p_batt < 0 then
    step15_e_out_grid f (-p_batt * dt_hours) (s15_eff_dod cfg)
      cfg.single_side_efficiency
  else 0

/-- Grid-effect power of one formula (lines 2283-2285). -/
def raw_p_grid (e_in e_out : ℚ) : ℚ :=
  if 0 < dt_hours then (e_in - e_out) / dt_hours else 0

/-- Lines 2250-2285: raw battery power (bounded by `p_max`), both
formulas' grid-side energies of the 15-minute quantum, and the grid-effect
powers. -/
def raw_pq (cfg : Step15Cfg) (op : Option Op) (load limit : ℚ) : PQ :=
  let p_batt := raw_p_batt cfg op load limit
  let e_in_phys := raw_e_in cfg .physics p_batt
  let e_in_sample := raw_e_in cfg .sample p_batt
  let e_out_phys := raw_e_out cfg .physics p_batt
  let e_out_sample := raw_e_out cfg .sample p_batt
  ⟨p_batt, e_in_phys, e_out_phys, e_in_sample, e_out_sample,
   raw_p_grid e_in_phys e_out_phys, raw_p_grid e_in_sample e_out_sample⟩

/-- Transformer-headroom clipping (lines 2287-2310). -/
def transformer_clip (cfg : Step15Cfg) (load limit : ℚ) (q : PQ) : PQ :=
  if cfg.limit_mode = "transformer_capacity" ∧ limit ≠ 0 ∧ load < limit then
    let maxc := max (max q.p_grid_phys q.p_grid_sample) 0
    if 0 < maxc then
      if limit + eps6 < load + maxc then
        let allowed := max (limit - load) 0
        let s0 := if allowed ≤ 0 then 0 else allowed / maxc
        let s1 := if s0 < 0 then 0 else s0
        if s1 < 1 then scalePQ s1 q else q
      else q
    else q
  else q

/-- No-reverse-feed-in clipping (lines 2312-2329). -/
def no_reverse_clip (cfg : Step15Cfg) (load : ℚ) (q : PQ) : PQ :=
  if 0 < load then
    let maxd := max (max (-q.p_grid_phys) (-q.p_grid_sample)) 0
    if 0 < maxd then
      let allowed := max (load - cfg.reserve_discharge_kw) 0
      if allowed + eps6 < maxd then
        let s0 := if 0 < allowed then allowed / maxd else 0
        let s1 := if s0 < 0 then 0 else s0
        if s1 < 1 then scalePQ s1 q else q
      else q
    else q
  else q

/-- Per-(date,window) running state (lines 2337-2342); the targets are
filled on creation (the source stores None and computes them on the same
first touch). -/
structure WSt where
  charged : ℚ
  discharged : ℚ
  charge_target : ℚ
  discharge_target : ℚ
deriving DecidableEq, Repr

/-- Python `x or 1.0` on a float: 0.0 falls back to 1.0 (line 2345). -/
def pyOrOne (x : ℚ) : ℚ := if x = 0 then 1 else x

/-- `info.get("full_ratio_main", 1.0)` for a window key. -/
def target_full (targets : List (WKey × WTgt)) (k : WKey) : ℚ :=
  ((afind targets k).map WTgt.full_ratio_main).getD 1

/-- Charge target of lines 2344-2348:
`cap * (full_ratio_main or 1.0) * effective_dod / max(eta, 1e-9)`. -/
def charge_target_spec (cfg : Step15Cfg) (targets : List (WKey × WTgt))
    (k : WKey) : ℚ :=
  cfg.capacity_kwh * pyOrOne (target_full targets k) * s15_eff_dod cfg
    / max cfg.single_side_efficiency eps9

/-- Discharge target of lines 2344-2349:
`cap * (full_ratio_main or 1.0) * effective_dod * eta`. -/
def discharge_target_spec (cfg : Step15Cfg) (targets : List (WKey × WTgt))
    (k : WKey) : ℚ :=
  cfg.capacity_kwh * pyOrOne (target_full targets k) * s15_eff_dod cfg
    * cfg.single_side_efficiency

/-- Main-formula charge energy of a point (lines 2355). -/
def e_in_main (f : EnergyFormula) (q : PQ) : ℚ :=
  match f with
  | .physics => q.e_in_phys
  | .sample => q.e_in_sample

/-- Main-formula discharge energy of a point (lines 2356). -/
def e_out_main (f : EnergyFormula) (q : PQ) : ℚ :=
  match f with
  | .physics => q.e_out_phys
  | .sample => q.e_out_sample

/-- One direction of the cumulative clamp (lines 2357-2368 resp.
2370-2381): if the point's main-formula energy `e` would exceed the
remaining room `allowed` beyond 1e-9, scale every quantity by
`allowed / max(e, 1e-9)`. -/
def clampBy (allowed e : ℚ) (q : PQ) : PQ :=
  if allowed + eps9 < e then scalePQ (allowed / max e eps9) q else q

/-- Result of the per-window cumulative clamp at one point. -/
structure WinOut where
  q : PQ
  wstate : List (WKey × WSt)
  cum_charge : Option ℚ
  cum_discharge : Option ℚ
  charge_target : Option ℚ
  discharge_target : Option ℚ

/-- Fresh state of a window on first touch (lines 2337-2351): zero
totals, targets computed from the parsed full ratio. -/
def wst_initial (cfg : Step15Cfg) (targets : List (WKey × WTgt))
    (k : WKey) : WSt :=
  { charged := 0, discharged := 0,
    charge_target := charge_target_spec cfg targets k,
    discharge_target := discharge_target_spec cfg targets k }

/-- `window_state.setdefault(win_key, ...)` (line 2337) with the lazy
target fill of lines 2343-2351. -/
def wst_get (cfg : Step15Cfg) (targets : List (WKey × WTgt))
    (ws : List (WKey × WSt)) (k : WKey) : WSt :=
  match afind ws k with
  | some s => s
  | none => wst_initial cfg targets k

/-- The clamp cascade of lines 2354-2381 on the quantity bundle: each
direction clamps only when the op matches and the stored target is
truthy (non-zero). -/
def clamp_q2 (f : EnergyFormula) (op : Option Op) (st : WSt) (q : PQ) : PQ :=
  let q1 := if op = some Op.charge ∧ st.charge_target ≠ 0 then
      clampBy (max (st.charge_target - st.charged) 0) (e_in_main f q) q
    else q
  if op = some Op.discharge ∧ st.discharge_target ≠ 0 then
    clampBy (max (st.discharge_target - st.discharged) 0)
      (e_out_main f q1) q1
  else q1

/-- State accumulation of lines 2382-2384. -/
def wst_next (f : EnergyFormula) (op : Option Op) (st : WSt) (q : PQ) : WSt :=
  { st with
    charged := st.charged + e_in_main f (clamp_q2 f op st q),
    discharged := st.discharged + e_out_main f (clamp_q2 f op st q) }

/-- Writing the mutated per-window state back into the dict (the source
mutates the `setdefault` result in place). -/
def ws_put (ws : List (WKey × WSt)) (k : WKey) (st2 : WSt) :
    List (WKey × WSt) :=
  match afind ws k with
  | some _ => aupdate ws k st2
  | none => ws ++ [(k, st2)]

/-- Per-window cumulative-energy clamp (lines 2331-2391).  The clamp of
each direction runs only when the point's op matches and the stored
target is truthy (non-zero); afterwards the state accumulates the
main-formula energies. -/
def window_clamp (cfg : Step15Cfg) (targets : List (WKey × WTgt))
    (wstate : List (WKey × WSt)) (op : Option Op) (wk : Option WKey)
    (q : PQ) : WinOut :=
  match wk with
  | some k =>
      if 0 < cfg.capacity_kwh ∧ 0 < s15_eff_dod cfg then
        let st := wst_get cfg targets wstate k
        let st2 := wst_next cfg.energy_formula op st q
        { q := clamp_q2 cfg.energy_formula op st q,
          wstate := ws_put wstate k st2,
          cum_charge := some st2.charged,
          cum_discharge := some st2.discharged,
          charge_target := some st.charge_target,
          discharge_target := some st.discharge_target }
      else
        { q := q, wstate := wstate, cum_charge := none, cum_discharge := none,
          charge_target := none, discharge_target := none }
  | none =>
      { q := q, wstate := wstate, cum_charge := none, cum_discharge := none,
        charge_target := none, discharge_target := none }

/-- SOC update of lines 2393-2401. -/
def soc_step (cfg : Step15Cfg) (soc p_batt : ℚ) : ℚ :=
  if 0 < cfg.capacity_kwh then
    max cfg.soc_min (min cfg.soc_max (soc + p_batt * dt_hours / cfg.capacity_kwh))
  else soc

/-- One emitted row of the simulator (lines 2403-2427).  `win_key` is not
a column of the source frame; it is carried as an explicit trace of the
window key the point resolved to, for stating the per-window claims. -/
structure Step15Rec where
  date : DateKey
  hour : Nat
  load_kw : ℚ
  op : Option Op
  limit_kw : ℚ
  p_max_kw : ℚ
  p_batt_kw : ℚ
  soc : ℚ
  e_in_physics_kwh : ℚ
  e_out_physics_kwh : ℚ
  e_in_sample_kwh : ℚ
  e_out_sample_kwh : ℚ
  p_grid_effect_physics_kw : ℚ
  p_grid_effect_sample_kw : ℚ
  cum_charge_grid_main : Option ℚ
  cum_discharge_grid_main : Option ℚ
  charge_target_grid_main : Option ℚ
  discharge_target_grid_main : Option ℚ
  win_key : Option WKey
deriving DecidableEq, Repr

/-- Carried loop state: current SOC and the per-window dict. -/
structure SimSt where
  soc : ℚ
  wstate : List (WKey × WSt)
deriving DecidableEq, Repr

/-- The body of the `for ts, row in joined.iterrows()` loop
(lines 2233-2427) for one point. -/
def sim_step (cfg : Step15Cfg) (daily_ops : List (DateKey × List Op))
    (targets : List (WKey × WTgt)) (st : SimSt) (p : SimPoint) :
    SimSt × Step15Rec :=
  let load := p.load_kw
  let op := op_for daily_ops p
  let limit := s15_day_limit cfg (p.date.1, p.date.2.1)
  let wk := window_key targets p op
  let q0 := raw_pq cfg op load limit
  let q1 := transformer_clip cfg load limit q0
  let q2 := no_reverse_clip cfg load q1
  let w := window_clamp cfg targets st.wstate op wk q2
  let soc2 := soc_step cfg st.soc w.q.p_batt
  ({ soc := soc2, wstate := w.wstate },
   { date := p.date, hour := p.hour, load_kw := load, op := op,
     limit_kw := limit, p_max_kw := s15_p_max cfg, p_batt_kw := w.q.p_batt,
     soc := soc2,
     e_in_physics_kwh := w.q.e_in_phys, e_out_physics_kwh := w.q.e_out_phys,
     e_in_sample_kwh := w.q.e_in_sample, e_out_sample_kwh := w.q.e_out_sample,
     p_grid_effect_physics_kw := w.q.p_grid_phys,
     p_grid_effect_sample_kw := w.q.p_grid_sample,
     cum_charge_grid_main := w.cum_charge,
     cum_discharge_grid_main := w.cum_discharge,
     charge_target_grid_main := w.charge_target,
     discharge_target_grid_main := w.discharge_target,
     win_key := wk })

/-- Chronological fold of the simulator loop. -/
def sim_go (cfg : Step15Cfg) (daily_ops : List (DateKey × List Op))
    (targets : List (WKey × WTgt)) : SimSt → List SimPoint → List Step15Rec
  | _, [] => []
  | st, p :: rest =>
      let r := sim_step cfg daily_ops targets st p
      r.2 :: sim_go cfg daily_ops targets r.1 rest

/-- `build_step15_power_series` (lines 2060-2433) on the joined,
chronologically sorted 15-minute rows. -/
def build_step15_power_series (cfg : Step15Cfg)
    (daily_ops : List (DateKey × List Op)) (window_debug : List WinDebugRow)
    (pts : List SimPoint) : List Step15Rec :=
  sim_go cfg daily_ops (build_window_targets window_debug)
    { soc := s15_init_soc cfg, wstate := [] } pts

/-! ## Specification-side helpers (used only to state properties) -/

/-- Union of the hour sets of the runs of one kind, in list order. -/
def unionHours (k : Op) : List Run → Finset Nat
  | [] => ∅
  | r :: rs => (if r.1 = k then r.2.toFinset else ∅) ∪ unionHours k rs

/-- Invariant of the simulator's per-window state after `n` processed
points: every tracked window carries the spec targets, and its running
grid-side totals exceed them by at most n·1e-9 (one clamp tolerance per
processed point). -/
def WInv (cfg : Step15Cfg) (targets : List (WKey × WTgt)) (n : Nat)
    (ws : List (WKey × WSt)) : Prop :=
  ∀ e ∈ ws,
    e.2.charge_target = charge_target_spec cfg targets e.1 ∧
    e.2.discharge_target = discharge_target_spec cfg targets e.1 ∧
    e.2.charged ≤ e.2.charge_target + n * eps9 ∧
    e.2.discharged ≤ e.2.discharge_target + n * eps9

end TouCycles

namespace TouCycles

/-! # Theorems -/

/-! ## C2 - grid-side conversion formulas -/

/-- C2 counterexample: at base 1, DOD 1e-5 and efficiency 1e-5 (both at
least 1e-9), the simulator's sample-formula discharge conversion returns
base / max(DOD*eta, 1e-9) = 1e9, not base / (DOD*eta) = 1e10, because the
guard is applied to the product.  The claim's equality fails at this
input. -/
theorem grid_formula_sample_discharge_counterexample :
    eps9 ≤ (1 : ℚ) / 100000 ∧
    step15_e_out_grid .sample 1 (1 / 100000) (1 / 100000) = 1000000000 ∧
    (1 : ℚ) / ((1 / 100000 : ℚ) * (1 / 100000)) = 10000000000 ∧
    step15_e_out_grid .sample 1 (1 / 100000) (1 / 100000) ≠
      (1 : ℚ) / ((1 / 100000 : ℚ) * (1 / 100000)) := by
  have h : step15_e_out_grid .sample 1 (1 / 100000) (1 / 100000)
      = 1000000000 := by
    norm_num [step15_e_out_grid, eps9, max_eq_right]
  refine ⟨by norm_num [eps9], h, by norm_num, ?_⟩
  rw [h]; norm_num

/-- C2 amended: for base `b ≥ 0` and DOD `d` and efficiency `eta` at
least 1e-9 whose product is also at least 1e-9 (the extra hypothesis the
simulator's sample-discharge guard forces), all eight grid-side
conversions of the window-average calculator and the 15-minute simulator
equal the specified formulas: physics charge `b*d/eta`, physics
discharge `b*d*eta`, sample charge `b*eta/d`, sample discharge
`b/(d*eta)`. -/
theorem grid_conversion_formulas (b d eta : ℚ) (hb : 0 ≤ b)
    (hd : eps9 ≤ d) (he : eps9 ≤ eta) (hde : eps9 ≤ d * eta) :
    cycle_e_in_grid .physics b d eta = b * d / eta ∧
    cycle_e_out_grid .physics b d eta = b * d * eta ∧
    cycle_e_in_grid .sample b d eta = b * eta / d ∧
    cycle_e_out_grid .sample b d eta = b / (d * eta) ∧
    step15_e_in_grid .physics b d eta = b * d / eta ∧
    step15_e_out_grid .physics b d eta = b * d * eta ∧
    step15_e_in_grid .sample b d eta = b * eta / d ∧
    step15_e_out_grid .sample b d eta = b / (d * eta) := by
  have heps : (0 : ℚ) < eps9 := by norm_num [eps9]
  have hd0 : d ≠ 0 := ne_of_gt (lt_of_lt_of_le heps hd)
  have he0 : eta ≠ 0 := ne_of_gt (lt_of_lt_of_le heps he)
  have hde0 : d * eta ≠ 0 := ne_of_gt (lt_of_lt_of_le heps hde)
  have h1 : max eta eps9 = eta := max_eq_left he
  have h2 : max d eps9 = d := max_eq_left hd
  have h3 : max (d * eta) eps9 = d * eta := max_eq_left hde
  refine ⟨?_, ?_, ?_, ?_, ?_, ?_, ?_, ?_⟩ <;>
    simp only [cycle_e_in_grid, cycle_e_out_grid, step15_e_in_grid,
      step15_e_out_grid, h1, h2, h3] <;>
    (try field_simp) <;> (try ring)

/-- Witness for C2 amended at b = 2, d = 9/10, eta = 9/10. -/
theorem grid_conversion_formulas_witness :
    (0 : ℚ) ≤ 2 ∧ eps9 ≤ (9 : ℚ) / 10 ∧ eps9 ≤ (9 : ℚ) / 10 ∧
    eps9 ≤ (9 : ℚ) / 10 * (9 / 10) ∧
    (cycle_e_in_grid .physics 2 (9 / 10) (9 / 10) = 2 * (9 / 10) / (9 / 10) ∧
     cycle_e_out_grid .physics 2 (9 / 10) (9 / 10) = 2 * (9 / 10) * (9 / 10) ∧
     cycle_e_in_grid .sample 2 (9 / 10) (9 / 10) = 2 * (9 / 10) / (9 / 10) ∧
     cycle_e_out_grid .sample 2 (9 / 10) (9 / 10) = 2 / ((9 / 10 : ℚ) * (9 / 10)) ∧
     step15_e_in_grid .physics 2 (9 / 10) (9 / 10) = 2 * (9 / 10) / (9 / 10) ∧
     step15_e_out_grid .physics 2 (9 / 10) (9 / 10) = 2 * (9 / 10) * (9 / 10) ∧
     step15_e_in_grid .sample 2 (9 / 10) (9 / 10) = 2 * (9 / 10) / (9 / 10) ∧
     step15_e_out_grid .sample 2 (9 / 10) (9 / 10) = 2 / ((9 / 10 : ℚ) * (9 / 10))) :=
  ⟨by norm_num, by norm_num [eps9], by norm_num [eps9], by norm_num [eps9],
   grid_conversion_formulas 2 (9 / 10) (9 / 10) (by norm_num)
     (by norm_num [eps9]) (by norm_num [eps9]) (by norm_num [eps9])⟩

/-! ## C8 - full_ratio versus capacity -/

/-- C8 counterexample: with the physics charge conversion of base 100 at
DOD = eta = 9/10 (grid energy 100), increasing the capacity from 50 to
200 strictly decreases full_ratio (1 down to 1/2), so full_ratio does not
"never decrease as capacity_kwh increases". -/
theorem full_ratio_capacity_counterexample :
    cycle_e_in_grid .physics 100 (9 / 10) (9 / 10) = 100 ∧
    (50 : ℚ) < 200 ∧
    full_ratio_of (cycle_e_in_grid .physics 100 (9 / 10) (9 / 10)) 50 = 1 ∧
    full_ratio_of (cycle_e_in_grid .physics 100 (9 / 10) (9 / 10)) 200 = 1 / 2 ∧
    full_ratio_of (cycle_e_in_grid .physics 100 (9 / 10) (9 / 10)) 200 <
      full_ratio_of (cycle_e_in_grid .physics 100 (9 / 10) (9 / 10)) 50 := by
  have h : cycle_e_in_grid .physics 100 (9 / 10) (9 / 10) = 100 := by
    norm_num [cycle_e_in_grid, eps9, max_eq_left]
  refine ⟨h, by norm_num, ?_, ?_, ?_⟩ <;>
    rw [h] <;> norm_num [full_ratio_of]

/-- C8 amended: holding the grid-side energy fixed, full_ratio is
antitone in the capacity - increasing `capacity_kwh` never increases
full_ratio, and for every positive capacity at most the grid energy it is
saturated at exactly 1.0. -/
theorem full_ratio_capacity_antitone (e c₁ c₂ : ℚ) (hc₁ : 0 < c₁)
    (h12 : c₁ ≤ c₂) (he : 0 ≤ e) :
    full_ratio_of e c₂ ≤ full_ratio_of e c₁ ∧
    (c₁ ≤ e → full_ratio_of e c₁ = 1) := by
  have hc₂ : 0 < c₂ := lt_of_lt_of_le hc₁ h12
  constructor
  · simp only [full_ratio_of, if_pos hc₁, if_pos hc₂]
    exact min_le_min (div_le_div_of_nonneg_left he hc₁ h12) le_rfl
  · intro hce
    simp only [full_ratio_of, if_pos hc₁]
    exact min_eq_right ((one_le_div hc₁).mpr hce)

/-- Witness for C8 amended at e = 100, capacities 50 ≤ 200. -/
theorem full_ratio_capacity_antitone_witness :
    (0 : ℚ) < 50 ∧ (50 : ℚ) ≤ 200 ∧ (0 : ℚ) ≤ 100 ∧
    (full_ratio_of 100 200 ≤ full_ratio_of 100 50 ∧
     ((50 : ℚ) ≤ 100 → full_ratio_of 100 50 = 1)) :=
  ⟨by norm_num, by norm_num, by norm_num,
   full_ratio_capacity_antitone 100 50 200 (by norm_num) (by norm_num)
     (by norm_num)⟩

/-! ## C4 - compute_window_avg_days raises on every call -/

/-- C4: `compute_window_avg_days` resolves the name `effective_dod`
(line 684, `dod = effective_dod`) before any other statement can return;
no binding of that name exists in the function or at module scope, so
every call - for any well-typed series, masks, config, limit info and
formula - raises a NameError instead of returning the per-day list. -/
theorem compute_window_avg_days_always_raises (series : List LoadPoint)
    (daily_masks : List (DateKey × DayMask)) (cfg : StorageCfgWA)
    (limit : LimitInfo) (formula : EnergyFormula) :
    compute_window_avg_days series daily_masks cfg limit formula =
      Except.error "NameError: name effective_dod is not defined" := rfl

/-! ## C9 - static payback at exact year boundary -/

/-- C9: with capex 500,000 and net cash flow 100,000 in each of the first
five years (and any further years), `compute_static_payback` returns
exactly 5.00: cumulative cash reaches capex at year 5 with interpolation
fraction exactly 1, and rounding 5 to two decimals is 5. -/
theorem static_payback_five_years (a b c d e : YearlyCashflowItem)
    (rest : List YearlyCashflowItem)
    (ha : a.net_cashflow = 100000) (hb : b.net_cashflow = 100000)
    (hc : c.net_cashflow = 100000) (hd : d.net_cashflow = 100000)
    (he : e.net_cashflow = 100000) (hy : e.year_index = 5) :
    compute_static_payback (a :: b :: c :: d :: e :: rest) 500000 = some 5 := by
  simp only [compute_static_payback, paybackGo, ha, hb, hc, hd, he, hy]
  norm_num [pyRound2, pyRoundInt]

/-- Witness for C9 at an explicit six-year cashflow list. -/
theorem static_payback_five_years_witness :
    compute_static_payback
      [⟨1, 100000, 0, 0, 100000, 100000⟩, ⟨2, 100000, 0, 0, 100000, 200000⟩,
       ⟨3, 100000, 0, 0, 100000, 300000⟩, ⟨4, 100000, 0, 0, 100000, 400000⟩,
       ⟨5, 100000, 0, 0, 100000, 500000⟩, ⟨6, 100000, 0, 0, 100000, 600000⟩]
      500000 = some 5 :=
  static_payback_five_years _ _ _ _ _ _ rfl rfl rfl rfl rfl rfl

/-! ## C10 - compute_limit_info with an unknown metering mode -/

/-- The start value is bounded by a fold with `max`. -/
theorem le_foldl_max_start (t : List ℚ) : ∀ a : ℚ, a ≤ t.foldl max a := by
  induction t with
  | nil => intro a; exact le_rfl
  | cons h rest ih =>
      intro a
      exact le_trans (le_max_left a h) (ih (max a h))

/-- Elements of a fold with `max` are bounded by the fold. -/
theorem foldl_max_le_of_mem (t : List ℚ) :
    ∀ (a x : ℚ), x ∈ t → x ≤ t.foldl max a := by
  induction t with
  | nil => intro a x hx; cases hx
  | cons h rest ih =>
      intro a x hx
      rcases List.mem_cons.mp hx with rfl | hx
      · exact le_trans (le_max_right a x) (le_foldl_max_start rest (max a x))
      · exact ih (max a h) x hx

/-- A fold with `max` is the start value or a list element. -/
theorem foldl_max_mem (t : List ℚ) :
    ∀ a : ℚ, t.foldl max a = a ∨ t.foldl max a ∈ t := by
  induction t with
  | nil => intro a; exact Or.inl rfl
  | cons h rest ih =>
      intro a
      rcases ih (max a h) with he | hm
      · rw [List.foldl_cons, he]
        rcases max_choice a h with h1 | h1
        · exact Or.inl h1
        · refine Or.inr ?_
          rw [h1]
          exact List.mem_cons_self h rest
      · exact Or.inr (List.mem_cons_of_mem h hm)

/-- `qmax` returns a member of the list that bounds every member. -/
theorem qmax_spec (l : List ℚ) (v : ℚ) (h : qmax l = some v) :
    v ∈ l ∧ ∀ x ∈ l, x ≤ v := by
  cases l with
  | nil => cases h
  | cons a t =>
      simp only [qmax, Option.some.injEq] at h
      subst h
      constructor
      · rcases foldl_max_mem t a with he | hm
        · rw [he]
          exact List.mem_cons_self a t
        · exact List.mem_cons_of_mem a hm
      · intro x hx
        rcases List.mem_cons.mp hx with rfl | hx
        · exact le_foldl_max_start t x
        · exact foldl_max_le_of_mem t a x hx

/-- C10: for any metering-mode argument whose stripped value is neither
"monthly_demand_max" nor "transformer_capacity" (including `None`),
`compute_limit_info` falls back to limit_mode "monthly_demand_max" with
no transformer limit, and its monthly table is still the per-calendar-
month maxima of the (NaN-dropped) load series: every entry is a load of
its month and bounds all loads of its month.  The function is total, so
it never raises. -/
theorem compute_limit_info_invalid_mode (series : List LoadPoint)
    (m : Option String) (tkva tpf : Option ℚ)
    (h1 : pyStrip (m.getD "monthly_demand_max") ≠ "monthly_demand_max")
    (h2 : pyStrip (m.getD "monthly_demand_max") ≠ "transformer_capacity") :
    (compute_limit_info series m tkva tpf).limit_mode = "monthly_demand_max" ∧
    (compute_limit_info series m tkva tpf).transformer_limit_kw = none ∧
    (compute_limit_info series m tkva tpf).monthly_demand_max =
      monthlyDemandMax (validLoads series) ∧
    ∀ k v, (k, v) ∈ (compute_limit_info series m tkva tpf).monthly_demand_max →
      v ∈ monthLoads (validLoads series) k ∧
      ∀ x ∈ monthLoads (validLoads series) k, x ≤ v := by
  have hres : compute_limit_info series m tkva tpf =
      { limit_mode := "monthly_demand_max",
        monthly_demand_max := monthlyDemandMax (validLoads series),
        transformer_limit_kw := none,
        notes := if series = [] then ["empty-series"] else [] } := by
    unfold compute_limit_info
    dsimp only
    rw [if_neg (show ¬ (pyStrip (m.getD "monthly_demand_max") =
        "monthly_demand_max" ∨ pyStrip (m.getD "monthly_demand_max") =
        "transformer_capacity") by simp [h1, h2])]
    rw [if_neg (show ¬ ("monthly_demand_max" : String) =
        "transformer_capacity" by decide)]
  refine ⟨by rw [hres], by rw [hres], by rw [hres], ?_⟩
  intro k v hv
  rw [hres] at hv
  simp only [monthlyDemandMax, List.mem_filterMap, Option.map_eq_some'] at hv
  obtain ⟨k', _, v', hq, hkv⟩ := hv
  obtain ⟨hk, hv'⟩ := Prod.mk.injEq .. ▸ hkv
  subst hk; subst hv'
  exact qmax_spec _ _ hq

/-- Witness for C10 at metering mode "bogus" on a three-point series. -/
theorem compute_limit_info_invalid_mode_witness :
    (compute_limit_info
      [⟨2024, 1, 1, 0, 0, some 50⟩, ⟨2024, 1, 2, 0, 0, some 70⟩,
       ⟨2024, 2, 1, 0, 0, some 60⟩] (some "bogus") none none).limit_mode =
      "monthly_demand_max" ∧
    (compute_limit_info
      [⟨2024, 1, 1, 0, 0, some 50⟩, ⟨2024, 1, 2, 0, 0, some 70⟩,
       ⟨2024, 2, 1, 0, 0, some 60⟩] (some "bogus") none none).transformer_limit_kw
      = none :=
  ⟨(compute_limit_info_invalid_mode _ (some "bogus") none none (by decide)
      (by decide)).1,
   (compute_limit_info_invalid_mode _ (some "bogus") none none (by decide)
      (by decide)).2.1⟩

/-! ## C6 - window extraction, filtering and slot assignment -/

/-- Closed form of the run-assignment loop: starting at index `i`, the
runs below overall index 2 feed c1, the rest feed c2, and indices ≥ 4 are
counted into `merged`. -/
theorem assignRuns_spec (rs : List Run) :
    ∀ (i : Nat) (acc : MaskAcc),
      assignRuns i acc rs =
        { c1c := acc.c1c ∪ unionHours Op.charge (rs.take (2 - i)),
          c1d := acc.c1d ∪ unionHours Op.discharge (rs.take (2 - i)),
          c2c := acc.c2c ∪ unionHours Op.charge (rs.drop (2 - i)),
          c2d := acc.c2d ∪ unionHours Op.discharge (rs.drop (2 - i)),
          merged := acc.merged + (rs.length - min rs.length (4 - i)) } := by
  induction rs with
  | nil => intro i acc; simp [assignRuns, unionHours]
  | cons r rest ih =>
      intro i acc
      obtain ⟨k, hrs⟩ := r
      by_cases h2 : i < 2
      · have ht : 2 - i = (2 - (i + 1)) + 1 := by omega
        have h4 : ¬ 4 ≤ i := by omega
        simp only [assignRuns]
        rw [ih (i + 1), ht, List.take_succ_cons, List.drop_succ_cons]
        cases k <;>
          simp [h2, h4, unionHours, Finset.union_assoc, MaskAcc.mk.injEq] <;>
          omega
      · have ht : 2 - i = 0 := by omega
        have ht' : 2 - (i + 1) = 0 := by omega
        simp only [assignRuns]
        rw [ih (i + 1), ht, ht', List.take_zero, List.drop_zero]
        by_cases h4 : 4 ≤ i <;>
          cases k <;>
            simp [h2, h4, unionHours, Finset.union_assoc, MaskAcc.mk.injEq] <;>
            omega

/-- C6: for a 24-hour operation array, `build_daily_cycles_masks` drops
exactly the runs whose minute length (hours × 60) is strictly below the
threshold, marking each pre-filter run's debug row with that flag; among
the surviving runs in chronological order the first two populate window
c1 and all later ones window c2 (per their kind), and the merged
diagnostic counter counts precisely the surviving runs at 0-based index
≥ 4. -/
theorem build_daily_cycles_masks_spec (date : DateKey) (ops : List Op)
    (threshold : Nat) (wrap : Bool) (h24 : ops.length = 24) :
    build_daily_cycles_masks [(date, ops)] threshold wrap =
      ([(date, (buildDayMask date ops threshold wrap).1)],
        (buildDayMask date ops threshold wrap).2.1,
        (buildDayMask date ops threshold wrap).2.2) ∧
    ((buildDayMask date ops threshold wrap).2.2).map
        DebugRun.filtered_by_threshold =
      (hour_runs_from_ops ops wrap).map (runFiltered threshold) ∧
    (buildDayMask date ops threshold wrap).1.c1.charge_hours =
      unionHours Op.charge
        (((hour_runs_from_ops ops wrap).filter
          (fun r => ¬ runFiltered threshold r)).take 2) ∧
    (buildDayMask date ops threshold wrap).1.c1.discharge_hours =
      unionHours Op.discharge
        (((hour_runs_from_ops ops wrap).filter
          (fun r => ¬ runFiltered threshold r)).take 2) ∧
    (buildDayMask date ops threshold wrap).1.c2.charge_hours =
      unionHours Op.charge
        (((hour_runs_from_ops ops wrap).filter
          (fun r => ¬ runFiltered threshold r)).drop 2) ∧
    (buildDayMask date ops threshold wrap).1.c2.discharge_hours =
      unionHours Op.discharge
        (((hour_runs_from_ops ops wrap).filter
          (fun r => ¬ runFiltered threshold r)).drop 2) ∧
    (buildDayMask date ops threshold wrap).2.1 =
      ((hour_runs_from_ops ops wrap).filter
        (fun r => ¬ runFiltered threshold r)).length -
      min ((hour_runs_from_ops ops wrap).filter
        (fun r => ¬ runFiltered threshold r)).length 4 := by
  refine ⟨by simp [build_daily_cycles_masks], ?_, ?_, ?_, ?_, ?_, ?_⟩
  · simp only [buildDayMask, List.map_map]
    have hcomp : DebugRun.filtered_by_threshold ∘
        mkDebugRun date threshold wrap
          (((hour_runs_from_ops ops wrap).filter
            (fun r => ¬ runFiltered threshold r)).length) =
        fun ir : Nat × Run => runFiltered threshold ir.2 := by
      funext ir; rfl
    rw [hcomp]
    calc (hour_runs_from_ops ops wrap).enum.map
          (fun ir : Nat × Run => runFiltered threshold ir.2)
        = ((hour_runs_from_ops ops wrap).enum.map Prod.snd).map
            (runFiltered threshold) := by rw [List.map_map]; rfl
      _ = (hour_runs_from_ops ops wrap).map (runFiltered threshold) := by
          rw [List.enum_map_snd]
  all_goals
    simp only [buildDayMask, assignRuns_spec]
    simp

/-- Witness for C6 at a concrete 24-hour array with six runs and
threshold 60 (no run filtered; runs 3-6 merge into c2; merged = 2). -/
theorem build_daily_cycles_masks_spec_witness :
    (buildDayMask (2024, 1, 1)
      ((((((List.replicate 24 Op.standby).set 1 Op.charge).set 2
        Op.charge).set 5 Op.discharge).set 8 Op.charge).set 11
          Op.discharge |>.set 14 Op.charge |>.set 20 Op.charge)
      60 false).2.1 =
    ((hour_runs_from_ops
      ((((((List.replicate 24 Op.standby).set 1 Op.charge).set 2
        Op.charge).set 5 Op.discharge).set 8 Op.charge).set 11
          Op.discharge |>.set 14 Op.charge |>.set 20 Op.charge)
      false).filter (fun r => ¬ runFiltered 60 r)).length -
    min ((hour_runs_from_ops
      ((((((List.replicate 24 Op.standby).set 1 Op.charge).set 2
        Op.charge).set 5 Op.discharge).set 8 Op.charge).set 11
          Op.discharge |>.set 14 Op.charge |>.set 20 Op.charge)
      false).filter (fun r => ¬ runFiltered 60 r)).length 4 :=
  (build_daily_cycles_masks_spec (2024, 1, 1) _ 60 false (by decide)).2.2.2.2.2.2

/-! ## C7 - price-priority discharge allocation -/

instance : IsTotal (DisPoint × ℚ) allocLe :=
  ⟨fun a b => by
    unfold allocLe
    rcases lt_trichotomy a.2 b.2 with h | h | h
    · exact Or.inr (Or.inl h)
    · rcases le_total a.1.ts b.1.ts with hts | hts
      · exact Or.inl (Or.inr ⟨h, hts⟩)
      · exact Or.inr (Or.inr ⟨h.symm, hts⟩)
    · exact Or.inl (Or.inl h)⟩

instance : IsTrans (DisPoint × ℚ) allocLe :=
  ⟨fun a b c hab hbc => by
    unfold allocLe at hab hbc ⊢
    rcases hab with h1 | ⟨h1, t1⟩ <;> rcases hbc with h2 | ⟨h2, t2⟩
    · exact Or.inl (lt_trans h2 h1)
    · exact Or.inl (h2 ▸ h1)
    · exact Or.inl (h1 ▸ h2)
    · exact Or.inr ⟨h1.trans h2, t1.trans t2⟩⟩

/-- The point of an allocation entry comes from the processed list. -/
theorem mem_allocGo_fst (res : ℚ) :
    ∀ (l : List (DisPoint × ℚ)) (rem : ℚ) (e : (DisPoint × ℚ) × ℚ),
      e ∈ allocGo res rem l → e.1 ∈ l := by
  intro l
  induction l with
  | nil => intro rem e he; simp [allocGo] at he
  | cons x xs ih =>
      intro rem e he
      by_cases hrem : rem ≤ eps6
      · simp only [allocGo, if_pos hrem] at he
        rcases List.mem_cons.mp he with rfl | he'
        · exact List.mem_cons_self x xs
        · exact List.mem_cons_of_mem x (ih rem e he')
      · simp only [allocGo, if_neg hrem] at he
        by_cases hcap : point_cap res x.1 ≤ eps9
        · rw [if_pos hcap] at he
          rcases List.mem_cons.mp he with rfl | he'
          · exact List.mem_cons_self x xs
          · exact List.mem_cons_of_mem x (ih rem e he')
        · rw [if_neg hcap] at he
          rcases List.mem_cons.mp he with rfl | he'
          · exact List.mem_cons_self x xs
          · exact List.mem_cons_of_mem x (ih _ e he')

/-- A positive allocation can only happen while the remaining budget is
above the 1e-6 exhaustion threshold. -/
theorem allocGo_pos_budget (res : ℚ) :
    ∀ (l : List (DisPoint × ℚ)) (rem : ℚ) (f : (DisPoint × ℚ) × ℚ),
      f ∈ allocGo res rem l → 0 < f.2 → eps6 < rem := by
  intro l
  induction l with
  | nil => intro rem f hf; simp [allocGo] at hf
  | cons x xs ih =>
      intro rem f hf hpos
      by_cases hrem : rem ≤ eps6
      · simp only [allocGo, if_pos hrem] at hf
        rcases List.mem_cons.mp hf with rfl | hf'
        · exact absurd hpos (lt_irrefl 0)
        · exact ih rem f hf' hpos
      · exact not_le.mp hrem

/-- Every allocation is nonnegative and bounded by the point's cap. -/
theorem allocGo_bounds (res : ℚ) :
    ∀ (l : List (DisPoint × ℚ)) (rem : ℚ) (e : (DisPoint × ℚ) × ℚ),
      e ∈ allocGo res rem l → 0 ≤ e.2 ∧ e.2 ≤ point_cap res e.1.1 := by
  intro l
  induction l with
  | nil => intro rem e he; simp [allocGo] at he
  | cons x xs ih =>
      intro rem e he
      have hcap0 : (0 : ℚ) ≤ point_cap res x.1 := le_max_left 0 _
      by_cases hrem : rem ≤ eps6
      · simp only [allocGo, if_pos hrem] at he
        rcases List.mem_cons.mp he with rfl | he'
        · exact ⟨le_rfl, hcap0⟩
        · exact ih rem e he'
      · simp only [allocGo, if_neg hrem] at he
        by_cases hcap : point_cap res x.1 ≤ eps9
        · rw [if_pos hcap] at he
          rcases List.mem_cons.mp he with rfl | he'
          · exact ⟨le_rfl, hcap0⟩
          · exact ih rem e he'
        · rw [if_neg hcap] at he
          rcases List.mem_cons.mp he with rfl | he'
          · have hrem0 : (0 : ℚ) < rem := by
              have : (0 : ℚ) < eps6 := by norm_num [eps6]
              linarith [not_le.mp hrem]
            have hc0 : (0 : ℚ) < point_cap res x.1 := by
              have : (0 : ℚ) < eps9 := by norm_num [eps9]
              linarith [not_le.mp hcap]
            exact ⟨le_min hc0.le hrem0.le, min_le_left _ _⟩
          · exact ih _ e he'

/-- The allocated total never exceeds the (nonnegative part of the)
budget. -/
theorem allocGo_sum (res : ℚ) :
    ∀ (l : List (DisPoint × ℚ)) (rem : ℚ),
      ((allocGo res rem l).map (fun e => e.2)).sum ≤ max rem 0 := by
  intro l
  induction l with
  | nil => intro rem; simp [allocGo, le_max_right]
  | cons x xs ih =>
      intro rem
      by_cases hrem : rem ≤ eps6
      · simp only [allocGo, if_pos hrem, List.map_cons, List.sum_cons, zero_add]
        exact ih rem
      · simp only [allocGo, if_neg hrem]
        by_cases hcap : point_cap res x.1 ≤ eps9
        · rw [if_pos hcap]
          simp only [List.map_cons, List.sum_cons, zero_add]
          exact ih rem
        · rw [if_neg hcap]
          simp only [List.map_cons, List.sum_cons]
          have hrem0 : (0 : ℚ) < rem := by
            have : (0 : ℚ) < eps6 := by norm_num [eps6]
            linarith [not_le.mp hrem]
          have hmle : min (point_cap res x.1) rem ≤ rem := min_le_right _ _
          have htail := ih (rem - min (point_cap res x.1) rem)
          have hmax : max (rem - min (point_cap res x.1) rem) 0 =
              rem - min (point_cap res x.1) rem := max_eq_left (by linarith)
          rw [hmax] at htail
          have : min (point_cap res x.1) rem +
              ((allocGo res (rem - min (point_cap res x.1) rem) xs).map
                (fun e => e.2)).sum ≤ rem := by linarith
          exact le_trans this (le_max_left rem 0)

/-- On a price-sorted list, a positive allocation at some point forces
every earlier point to be saturated up to the 1e-9 skip tolerance. -/
theorem allocGo_saturated (res : ℚ) :
    ∀ (l : List (DisPoint × ℚ)) (rem : ℚ), l.Sorted allocLe →
      ∀ e f : (DisPoint × ℚ) × ℚ, e ∈ allocGo res rem l →
        f ∈ allocGo res rem l → f.1.2 < e.1.2 → 0 < f.2 →
        point_cap res e.1.1 - eps9 ≤ e.2 := by
  intro l
  induction l with
  | nil => intro rem _ e f he; simp [allocGo] at he
  | cons x xs ih =>
      intro rem hsort e f he hf hlt hpos
      have hs := List.sorted_cons.mp hsort
      by_cases hrem : rem ≤ eps6
      · simp only [allocGo, if_pos hrem] at he hf
        rcases List.mem_cons.mp hf with rfl | hf'
        · exact absurd hpos (lt_irrefl 0)
        · exact absurd (allocGo_pos_budget res xs rem f hf' hpos)
            (not_lt.mpr hrem)
      · simp only [allocGo, if_neg hrem] at he hf
        by_cases hcap : point_cap res x.1 ≤ eps9
        · rw [if_pos hcap] at he hf
          rcases List.mem_cons.mp he with rfl | he'
          · simp only
            linarith
          · rcases List.mem_cons.mp hf with rfl | hf'
            · exact absurd hpos (lt_irrefl 0)
            · exact ih rem hs.2 e f he' hf' hlt hpos
        · rw [if_neg hcap] at he hf
          rcases List.mem_cons.mp he with rfl | he'
          · rcases List.mem_cons.mp hf with rfl | hf'
            · exact absurd hlt (lt_irrefl _)
            · have hb := allocGo_pos_budget res xs
                (rem - min (point_cap res x.1) rem) f hf' hpos
              by_cases hcr : point_cap res x.1 ≤ rem
              · have heps : (0 : ℚ) < eps9 := by norm_num [eps9]
                simp only [min_eq_left hcr]
                linarith
              · push_neg at hcr
                rw [min_eq_right hcr.le] at hb
                have : (0 : ℚ) < eps6 := by norm_num [eps6]
                linarith
          · rcases List.mem_cons.mp hf with rfl | hf'
            · have hmem := mem_allocGo_fst res xs _ e he'
              rcases hs.1 e.1 hmem with hx | hx
              · exact absurd hlt (not_lt.mpr hx.le)
              · rw [hx.1] at hlt
                exact absurd hlt (lt_irrefl _)
            · exact ih _ hs.2 e f he' hf' hlt hpos

/-- C7: `_allocate_discharge_by_price` allocates at most each point's cap
min(pre-computed per-point bound, (load - reserve)*0.25), never exceeds
the daily budget in total, and is price-greedy: whenever a strictly
lower-priced point receives positive energy, every higher-priced point is
saturated at its cap (up to the 1e-9 skip tolerance); points reached
after the budget is exhausted therefore get zero. -/
theorem allocate_discharge_by_price_spec (pts : List DisPoint)
    (budget reserve : ℚ) (ps : List (Nat × ℚ)) :
    (∀ e ∈ allocate_discharge_by_price pts budget reserve ps,
      0 ≤ e.2 ∧ e.2 ≤ point_cap reserve e.1.1) ∧
    ((allocate_discharge_by_price pts budget reserve ps).map
      (fun e => e.2)).sum ≤ max budget 0 ∧
    (∀ e ∈ allocate_discharge_by_price pts budget reserve ps,
      ∀ f ∈ allocate_discharge_by_price pts budget reserve ps,
        f.1.2 < e.1.2 → 0 < f.2 → point_cap reserve e.1.1 - eps9 ≤ e.2) := by
  unfold allocate_discharge_by_price
  by_cases h : pts = [] ∨ budget ≤ 0
  · rw [if_pos h]
    refine ⟨?_, ?_, ?_⟩
    · intro e he
      simp only [List.mem_map] at he
      obtain ⟨p, _, rfl⟩ := he
      exact ⟨le_rfl, le_max_left 0 _⟩
    · have hz : ((pts.map (fun p => ((p, priceAt ps p.ts), (0 : ℚ)))).map
          (fun e => e.2)).sum = 0 := by
        apply List.sum_eq_zero
        intro x hx
        simp only [List.mem_map] at hx
        obtain ⟨e, he, rfl⟩ := hx
        obtain ⟨p, _, rfl⟩ := he
        rfl
      rw [hz]
      exact le_max_right budget 0
    · intro e _ f hf _ hpos
      simp only [List.mem_map] at hf
      obtain ⟨p, _, rfl⟩ := hf
      exact absurd hpos (lt_irrefl 0)
  · rw [if_neg h]
    have hperm : List.Perm
        (List.insertionSort allocTsLe
          (allocGo reserve budget (List.insertionSort allocLe
            (pts.map (fun p => (p, priceAt ps p.ts))))))
        (allocGo reserve budget (List.insertionSort allocLe
          (pts.map (fun p => (p, priceAt ps p.ts))))) :=
      List.perm_insertionSort _ _
    refine ⟨?_, ?_, ?_⟩
    · intro e he
      exact allocGo_bounds reserve _ budget e (hperm.mem_iff.mp he)
    · rw [(hperm.map (fun e => e.2)).sum_eq]
      exact allocGo_sum reserve _ budget
    · intro e he f hf hlt hpos
      exact allocGo_saturated reserve _ budget
        (List.sorted_insertionSort allocLe _) e f (hperm.mem_iff.mp he)
        (hperm.mem_iff.mp hf) hlt hpos

/-- Witness for C7: the Scenario B inputs - two points priced 0.3 and
1.2, per-point cap 8 kWh (bound 8, load 40 kW, reserve 0), budget 10 kWh:
the 1.2-priced point gets 8 kWh, the 0.3-priced point 2 kWh, total 10. -/
theorem allocate_discharge_by_price_spec_witness :
    allocate_discharge_by_price [⟨1, 40, 8⟩, ⟨2, 40, 8⟩] 10 0
      [(1, 3 / 10), (2, 12 / 10)] =
      [((⟨1, 40, 8⟩, 3 / 10), 2), ((⟨2, 40, 8⟩, 12 / 10), 8)] ∧
    ((allocate_discharge_by_price [⟨1, 40, 8⟩, ⟨2, 40, 8⟩] 10 0
      [(1, 3 / 10), (2, 12 / 10)]).map (fun e => e.2)).sum ≤ max 10 0 :=
  ⟨by with_unfolding_all decide,
   (allocate_discharge_by_price_spec [⟨1, 40, 8⟩, ⟨2, 40, 8⟩] 10 0
     [(1, 3 / 10), (2, 12 / 10)]).2.1⟩

/-! ## C3 - SOC stays in the configured band -/

/-- The clamped initial SOC lies in `[soc_min, soc_max]`. -/
theorem s15_init_soc_mem (cfg : Step15Cfg) (h : cfg.soc_min ≤ cfg.soc_max) :
    cfg.soc_min ≤ s15_init_soc cfg ∧ s15_init_soc cfg ≤ cfg.soc_max := by
  unfold s15_init_soc
  exact ⟨le_max_left _ _, max_le h (min_le_left _ _)⟩

/-- One SOC update keeps the SOC in the band. -/
theorem soc_step_mem (cfg : Step15Cfg) (soc p_batt : ℚ)
    (h : cfg.soc_min ≤ cfg.soc_max) (h1 : cfg.soc_min ≤ soc)
    (h2 : soc ≤ cfg.soc_max) :
    cfg.soc_min ≤ soc_step cfg soc p_batt ∧
    soc_step cfg soc p_batt ≤ cfg.soc_max := by
  unfold soc_step
  split
  · exact ⟨le_max_left _ _, max_le h (min_le_left _ _)⟩
  · exact ⟨h1, h2⟩

/-- Every record of the chronological fold has its SOC in the band. -/
theorem sim_go_soc_mem (cfg : Step15Cfg) (dops : List (DateKey × List Op))
    (targets : List (WKey × WTgt)) (h : cfg.soc_min ≤ cfg.soc_max) :
    ∀ (pts : List SimPoint) (st : SimSt),
      cfg.soc_min ≤ st.soc → st.soc ≤ cfg.soc_max →
      ∀ r ∈ sim_go cfg dops targets st pts,
        cfg.soc_min ≤ r.soc ∧ r.soc ≤ cfg.soc_max := by
  intro pts
  induction pts with
  | nil => intro st _ _ r hr; simp [sim_go] at hr
  | cons p rest ih =>
      intro st h1 h2 r hr
      rcases List.mem_cons.mp hr with rfl | hr'
      · exact soc_step_mem cfg st.soc _ h h1 h2
      · exact ih _ (soc_step_mem cfg st.soc _ h h1 h2).1
          (soc_step_mem cfg st.soc _ h h1 h2).2 r hr'

/-- C3: for every input series, operation labels, window-debug rows and
storage configuration with `soc_min ≤ soc_max`, the clamped initial SOC
and the SOC recorded at every 15-minute point lie in
`[soc_min, soc_max]`, whatever the sequence of charge/discharge
commands resolves to. -/
theorem step15_soc_in_band (cfg : Step15Cfg)
    (dops : List (DateKey × List Op)) (rows : List WinDebugRow)
    (pts : List SimPoint) (h : cfg.soc_min ≤ cfg.soc_max) :
    (cfg.soc_min ≤ s15_init_soc cfg ∧ s15_init_soc cfg ≤ cfg.soc_max) ∧
    ∀ r ∈ build_step15_power_series cfg dops rows pts,
      cfg.soc_min ≤ r.soc ∧ r.soc ≤ cfg.soc_max :=
  ⟨s15_init_soc_mem cfg h,
   sim_go_soc_mem cfg dops (build_window_targets rows) h pts
     { soc := s15_init_soc cfg, wstate := [] }
     (s15_init_soc_mem cfg h).1 (s15_init_soc_mem cfg h).2⟩

/-- Witness for C3 at a one-point run of a concrete configuration. -/
theorem step15_soc_in_band_witness :
    ((1 : ℚ) / 20 ≤ 19 / 20) ∧
    ∀ r ∈ build_step15_power_series
      { month_max := [((2024, 1), 200)], transformer_limit_kw := none,
        limit_mode := "monthly_demand_max", capacity_kwh := 100,
        c_rate := 1 / 2, single_side_efficiency := 9 / 10,
        depth_of_discharge := 9 / 10, soc_min := 1 / 20, soc_max := 19 / 20,
        reserve_charge_kw := 0, reserve_discharge_kw := 0,
        initial_soc := none, energy_formula := .physics }
      [((2024, 1, 1), (List.replicate 24 Op.standby).set 1 Op.charge)] []
      [⟨(2024, 1, 1), 1, 50⟩],
      (1 : ℚ) / 20 ≤ r.soc ∧ r.soc ≤ 19 / 20 :=
  ⟨by norm_num,
   (step15_soc_in_band
     { month_max := [((2024, 1), 200)], transformer_limit_kw := none,
       limit_mode := "monthly_demand_max", capacity_kwh := 100,
       c_rate := 1 / 2, single_side_efficiency := 9 / 10,
       depth_of_discharge := 9 / 10, soc_min := 1 / 20, soc_max := 19 / 20,
       reserve_charge_kw := 0, reserve_discharge_kw := 0,
       initial_soc := none, energy_formula := .physics }
     [((2024, 1, 1), (List.replicate 24 Op.standby).set 1 Op.charge)] []
     [⟨(2024, 1, 1), 1, 50⟩] (by norm_num)).2⟩

/-! ## Scaling-cascade lemmas shared by the clipping claims -/

theorem scalePQ_one (q : PQ) : scalePQ 1 q = q := by
  simp [scalePQ]

theorem scalePQ_comp (s1 s2 : ℚ) (q : PQ) :
    scalePQ s2 (scalePQ s1 q) = scalePQ (s1 * s2) q := by
  simp [scalePQ, mul_assoc]

theorem e_in_main_scalePQ (f : EnergyFormula) (s : ℚ) (q : PQ) :
    e_in_main f (scalePQ s q) = e_in_main f q * s := by
  cases f <;> rfl

theorem e_out_main_scalePQ (f : EnergyFormula) (s : ℚ) (q : PQ) :
    e_out_main f (scalePQ s q) = e_out_main f q * s := by
  cases f <;> rfl

/-- A bounded quantity scaled by a factor in [0, 1] keeps a nonnegative
bound. -/
theorem scale_le_bound (x B s : ℚ) (hx : x ≤ B) (hB : 0 ≤ B) (hs0 : 0 ≤ s)
    (hs1 : s ≤ 1) : s * x ≤ B := by
  rcases le_or_lt x 0 with h | h
  · exact le_trans (mul_nonpos_of_nonneg_of_nonpos hs0 h) hB
  · calc s * x ≤ 1 * x := mul_le_mul_of_nonneg_right hs1 h.le
      _ = x := one_mul x
      _ ≤ B := hx

/-- `clampBy` is a uniform scaling by a factor in [0, 1]. -/
theorem clampBy_scale (allowed e : ℚ) (q : PQ) (h0 : 0 ≤ allowed) :
    ∃ s : ℚ, 0 ≤ s ∧ s ≤ 1 ∧ clampBy allowed e q = scalePQ s q := by
  unfold clampBy
  by_cases h : allowed + eps9 < e
  · rw [if_pos h]
    have heps : (0 : ℚ) < eps9 := by norm_num [eps9]
    have hemax : (0 : ℚ) < max e eps9 := lt_of_lt_of_le heps (le_max_right e eps9)
    have hae : allowed < max e eps9 :=
      lt_of_lt_of_le (by linarith) (le_max_left e eps9)
    exact ⟨allowed / max e eps9, div_nonneg h0 hemax.le,
      le_of_lt ((div_lt_one hemax).mpr hae), rfl⟩
  · rw [if_neg h]
    exact ⟨1, zero_le_one, le_rfl, (scalePQ_one q).symm⟩

/-- After the charge-direction clamp the main-formula charge energy is at
most the remaining room plus the 1e-9 tolerance. -/
theorem clampBy_e_in_le (f : EnergyFormula) (allowed : ℚ) (q : PQ)
    (h0 : 0 ≤ allowed) :
    e_in_main f (clampBy allowed (e_in_main f q) q) ≤ allowed + eps9 := by
  unfold clampBy
  by_cases h : allowed + eps9 < e_in_main f q
  · rw [if_pos h, e_in_main_scalePQ]
    have heps : (0 : ℚ) < eps9 := by norm_num [eps9]
    have he : eps9 ≤ e_in_main f q := by linarith
    have hne : e_in_main f q ≠ 0 := ne_of_gt (lt_of_lt_of_le heps he)
    rw [max_eq_left he, mul_comm, div_mul_cancel₀ allowed hne]
    linarith
  · rw [if_neg h]
    linarith [not_lt.mp h]

/-- After the discharge-direction clamp the main-formula discharge energy
is at most the remaining room plus the 1e-9 tolerance. -/
theorem clampBy_e_out_le (f : EnergyFormula) (allowed : ℚ) (q : PQ)
    (h0 : 0 ≤ allowed) :
    e_out_main f (clampBy allowed (e_out_main f q) q) ≤ allowed + eps9 := by
  unfold clampBy
  by_cases h : allowed + eps9 < e_out_main f q
  · rw [if_pos h, e_out_main_scalePQ]
    have heps : (0 : ℚ) < eps9 := by norm_num [eps9]
    have he : eps9 ≤ e_out_main f q := by linarith
    have hne : e_out_main f q ≠ 0 := ne_of_gt (lt_of_lt_of_le heps he)
    rw [max_eq_left he, mul_comm, div_mul_cancel₀ allowed hne]
    linarith
  · rw [if_neg h]
    linarith [not_lt.mp h]

/-- Transformer-headroom clipping is a uniform scaling by a factor in
[0, 1]. -/
theorem transformer_clip_scale (cfg : Step15Cfg) (load limit : ℚ) (q : PQ) :
    ∃ s : ℚ, 0 ≤ s ∧ s ≤ 1 ∧
      transformer_clip cfg load limit q = scalePQ s q := by
  unfold transformer_clip
  dsimp only
  by_cases h1 : cfg.limit_mode = "transformer_capacity" ∧ limit ≠ 0 ∧
      load < limit
  case neg =>
    rw [if_neg h1]; exact ⟨1, zero_le_one, le_rfl, (scalePQ_one q).symm⟩
  rw [if_pos h1]
  by_cases h2 : 0 < max (max q.p_grid_phys q.p_grid_sample) 0
  case neg =>
    rw [if_neg h2]; exact ⟨1, zero_le_one, le_rfl, (scalePQ_one q).symm⟩
  rw [if_pos h2]
  by_cases h3 : limit + eps6 < load + max (max q.p_grid_phys q.p_grid_sample) 0
  case neg =>
    rw [if_neg h3]; exact ⟨1, zero_le_one, le_rfl, (scalePQ_one q).symm⟩
  rw [if_pos h3]
  set s0 := if max (limit - load) 0 ≤ 0 then (0 : ℚ)
    else max (limit - load) 0 / max (max q.p_grid_phys q.p_grid_sample) 0
    with hs0
  set s1 := if s0 < 0 then (0 : ℚ) else s0 with hs1
  have hs1nn : 0 ≤ s1 := by
    rw [hs1]; split_ifs with h
    · exact le_rfl
    · exact not_lt.mp h
  by_cases h4 : s1 < 1
  · refine ⟨s1, hs1nn, h4.le, ?_⟩
    rw [if_pos h4]
  · refine ⟨1, zero_le_one, le_rfl, ?_⟩
    rw [if_neg h4, scalePQ_one]

/-- No-reverse-feed-in clipping is a uniform scaling by a factor in
[0, 1]. -/
theorem no_reverse_clip_scale (cfg : Step15Cfg) (load : ℚ) (q : PQ) :
    ∃ s : ℚ, 0 ≤ s ∧ s ≤ 1 ∧ no_reverse_clip cfg load q = scalePQ s q := by
  unfold no_reverse_clip
  dsimp only
  by_cases h1 : 0 < load
  case neg =>
    rw [if_neg h1]; exact ⟨1, zero_le_one, le_rfl, (scalePQ_one q).symm⟩
  rw [if_pos h1]
  by_cases h2 : 0 < max (max (-q.p_grid_phys) (-q.p_grid_sample)) 0
  case neg =>
    rw [if_neg h2]; exact ⟨1, zero_le_one, le_rfl, (scalePQ_one q).symm⟩
  rw [if_pos h2]
  by_cases h3 : max (load - cfg.reserve_discharge_kw) 0 + eps6 <
      max (max (-q.p_grid_phys) (-q.p_grid_sample)) 0
  case neg =>
    rw [if_neg h3]; exact ⟨1, zero_le_one, le_rfl, (scalePQ_one q).symm⟩
  rw [if_pos h3]
  set s0 := if 0 < max (load - cfg.reserve_discharge_kw) 0 then
    max (load - cfg.reserve_discharge_kw) 0 /
      max (max (-q.p_grid_phys) (-q.p_grid_sample)) 0 else (0 : ℚ) with hs0
  set s1 := if s0 < 0 then (0 : ℚ) else s0 with hs1
  have hs1nn : 0 ≤ s1 := by
    rw [hs1]; split_ifs with h
    · exact le_rfl
    · exact not_lt.mp h
  by_cases h4 : s1 < 1
  · refine ⟨s1, hs1nn, h4.le, ?_⟩
    rw [if_pos h4]
  · refine ⟨1, zero_le_one, le_rfl, ?_⟩
    rw [if_neg h4, scalePQ_one]

/-- The clamp cascade changes the quantity bundle by a uniform scaling
with a factor in [0, 1]. -/
theorem clamp_q2_scale (f : EnergyFormula) (op : Option Op) (st : WSt)
    (q : PQ) : ∃ s : ℚ, 0 ≤ s ∧ s ≤ 1 ∧ clamp_q2 f op st q = scalePQ s q := by
  unfold clamp_q2
  dsimp only
  by_cases hc : op = some Op.charge ∧ st.charge_target ≠ 0
  · rw [if_pos hc]
    obtain ⟨s1, hs10, hs11, hq1⟩ :=
      clampBy_scale (max (st.charge_target - st.charged) 0)
        (e_in_main f q) q (le_max_right _ 0)
    by_cases hd : op = some Op.discharge ∧ st.discharge_target ≠ 0
    · exfalso
      rw [hc.1] at hd
      simp at hd
    · rw [if_neg hd, hq1]
      exact ⟨s1, hs10, hs11, rfl⟩
  · rw [if_neg hc]
    by_cases hd : op = some Op.discharge ∧ st.discharge_target ≠ 0
    · rw [if_pos hd]
      obtain ⟨s2, hs20, hs21, hq2⟩ :=
        clampBy_scale (max (st.discharge_target - st.discharged) 0)
          (e_out_main f q) q (le_max_right _ 0)
      rw [hq2]
      exact ⟨s2, hs20, hs21, rfl⟩
    · rw [if_neg hd]
      exact ⟨1, zero_le_one, le_rfl, (scalePQ_one q).symm⟩

/-- The per-window cumulative clamp changes the quantity bundle by a
uniform scaling with a factor in [0, 1]. -/
theorem window_clamp_q_scale (cfg : Step15Cfg) (targets : List (WKey × WTgt))
    (ws : List (WKey × WSt)) (op : Option Op) (wk : Option WKey) (q : PQ) :
    ∃ s : ℚ, 0 ≤ s ∧ s ≤ 1 ∧
      (window_clamp cfg targets ws op wk q).q = scalePQ s q := by
  unfold window_clamp
  cases wk with
  | none => exact ⟨1, zero_le_one, le_rfl, (scalePQ_one q).symm⟩
  | some k =>
      dsimp only
      by_cases hg : 0 < cfg.capacity_kwh ∧ 0 < s15_eff_dod cfg
      · rw [if_pos hg]
        exact clamp_q2_scale cfg.energy_formula op (wst_get cfg targets ws k) q
      · rw [if_neg hg]
        exact ⟨1, zero_le_one, le_rfl, (scalePQ_one q).symm⟩

theorem step15_e_in_grid_nonneg (f : EnergyFormula) (b d eta : ℚ)
    (hb : 0 ≤ b) (hd : 0 ≤ d) (he : 0 ≤ eta) :
    0 ≤ step15_e_in_grid f b d eta := by
  have h9 : (0 : ℚ) ≤ eps9 := by norm_num [eps9]
  cases f
  · exact mul_nonneg hb (div_nonneg hd (le_trans h9 (le_max_right _ _)))
  · exact mul_nonneg hb (div_nonneg he (le_trans h9 (le_max_right _ _)))

theorem step15_e_out_grid_nonneg (f : EnergyFormula) (b d eta : ℚ)
    (hb : 0 ≤ b) (hd : 0 ≤ d) (he : 0 ≤ eta) :
    0 ≤ step15_e_out_grid f b d eta := by
  have h9 : (0 : ℚ) ≤ eps9 := by norm_num [eps9]
  cases f
  · exact mul_nonneg hb (mul_nonneg hd he)
  · exact mul_nonneg hb (div_nonneg zero_le_one
      (le_trans h9 (le_max_right _ _)))

theorem raw_p_batt_charge_nonneg (cfg : Step15Cfg) (op : Option Op)
    (load limit : ℚ) (hop : op ≠ some Op.discharge) :
    0 ≤ raw_p_batt cfg op load limit := by
  cases op with
  | none => exact le_rfl
  | some o =>
      cases o with
      | charge =>
          simp only [raw_p_batt]
          split_ifs with h
          · exact le_min (le_max_right _ 0) h.le
          · exact le_max_right _ 0
      | discharge => exact absurd rfl hop
      | standby => exact le_rfl

theorem raw_p_batt_discharge_nonpos (cfg : Step15Cfg) (load limit : ℚ) :
    raw_p_batt cfg (some Op.discharge) load limit ≤ 0 := by
  simp only [raw_p_batt]
  split_ifs with h
  · exact neg_nonpos.mpr (le_min (le_max_right _ 0) h.le)
  · exact neg_nonpos.mpr (le_max_right _ 0)

theorem raw_e_in_nonneg (cfg : Step15Cfg) (f : EnergyFormula) (pb : ℚ)
    (he : 0 ≤ cfg.single_side_efficiency) : 0 ≤ raw_e_in cfg f pb := by
  unfold raw_e_in
  split_ifs with h
  · exact step15_e_in_grid_nonneg _ _ _ _
      (mul_nonneg h.le (by norm_num [dt_hours])) (le_max_left 0 _) he
  · exact le_rfl

theorem raw_e_out_nonneg (cfg : Step15Cfg) (f : EnergyFormula) (pb : ℚ)
    (he : 0 ≤ cfg.single_side_efficiency) : 0 ≤ raw_e_out cfg f pb := by
  unfold raw_e_out
  split_ifs with h
  · exact step15_e_out_grid_nonneg _ _ _ _
      (mul_nonneg (by linarith) (by norm_num [dt_hours])) (le_max_left 0 _) he
  · exact le_rfl

theorem raw_e_in_of_nonpos (cfg : Step15Cfg) (f : EnergyFormula) (pb : ℚ)
    (h : pb ≤ 0) : raw_e_in cfg f pb = 0 :=
  if_neg (not_lt.mpr h)

theorem raw_e_out_of_nonneg (cfg : Step15Cfg) (f : EnergyFormula) (pb : ℚ)
    (h : 0 ≤ pb) : raw_e_out cfg f pb = 0 :=
  if_neg (not_lt.mpr h)

/-- For a non-discharge op the raw quantities are a nonnegative charge
side, zero discharge side, and nonnegative grid-effect powers. -/
theorem raw_pq_charge_all (cfg : Step15Cfg) (op : Option Op) (load limit : ℚ)
    (hop : op ≠ some Op.discharge) (he : 0 ≤ cfg.single_side_efficiency) :
    0 ≤ (raw_pq cfg op load limit).e_in_phys ∧
    0 ≤ (raw_pq cfg op load limit).e_in_sample ∧
    (raw_pq cfg op load limit).e_out_phys = 0 ∧
    (raw_pq cfg op load limit).e_out_sample = 0 ∧
    0 ≤ (raw_pq cfg op load limit).p_grid_phys ∧
    0 ≤ (raw_pq cfg op load limit).p_grid_sample := by
  have hdt : (0 : ℚ) < dt_hours := by norm_num [dt_hours]
  have hpb := raw_p_batt_charge_nonneg cfg op load limit hop
  have hz1 := raw_e_out_of_nonneg cfg .physics _ hpb
  have hz2 := raw_e_out_of_nonneg cfg .sample _ hpb
  refine ⟨raw_e_in_nonneg cfg .physics _ he, raw_e_in_nonneg cfg .sample _ he,
    hz1, hz2, ?_, ?_⟩
  · have hin := raw_e_in_nonneg cfg EnergyFormula.physics
      (raw_p_batt cfg op load limit) he
    show 0 ≤ raw_p_grid (raw_e_in cfg .physics (raw_p_batt cfg op load limit))
      (raw_e_out cfg .physics (raw_p_batt cfg op load limit))
    unfold raw_p_grid
    rw [if_pos hdt, hz1]
    exact div_nonneg (by linarith) hdt.le
  · have hin := raw_e_in_nonneg cfg EnergyFormula.sample
      (raw_p_batt cfg op load limit) he
    show 0 ≤ raw_p_grid (raw_e_in cfg .sample (raw_p_batt cfg op load limit))
      (raw_e_out cfg .sample (raw_p_batt cfg op load limit))
    unfold raw_p_grid
    rw [if_pos hdt, hz2]
    exact div_nonneg (by linarith) hdt.le

/-- For a discharge op the raw quantities are a zero charge side, a
nonnegative discharge side, and nonpositive grid-effect powers. -/
theorem raw_pq_discharge_all (cfg : Step15Cfg) (load limit : ℚ)
    (he : 0 ≤ cfg.single_side_efficiency) :
    (raw_pq cfg (some Op.discharge) load limit).e_in_phys = 0 ∧
    (raw_pq cfg (some Op.discharge) load limit).e_in_sample = 0 ∧
    0 ≤ (raw_pq cfg (some Op.discharge) load limit).e_out_phys ∧
    0 ≤ (raw_pq cfg (some Op.discharge) load limit).e_out_sample ∧
    (raw_pq cfg (some Op.discharge) load limit).p_grid_phys ≤ 0 ∧
    (raw_pq cfg (some Op.discharge) load limit).p_grid_sample ≤ 0 := by
  have hdt : (0 : ℚ) < dt_hours := by norm_num [dt_hours]
  have hpb := raw_p_batt_discharge_nonpos cfg load limit
  have hz1 := raw_e_in_of_nonpos cfg .physics _ hpb
  have hz2 := raw_e_in_of_nonpos cfg .sample _ hpb
  refine ⟨hz1, hz2, raw_e_out_nonneg cfg .physics _ he,
    raw_e_out_nonneg cfg .sample _ he, ?_, ?_⟩
  · show raw_p_grid
      (raw_e_in cfg .physics (raw_p_batt cfg (some Op.discharge) load limit))
      (raw_e_out cfg .physics (raw_p_batt cfg (some Op.discharge) load limit))
      ≤ 0
    unfold raw_p_grid
    rw [if_pos hdt, hz1, zero_sub, neg_div]
    exact neg_nonpos.mpr (div_nonneg
      (raw_e_out_nonneg cfg .physics _ he) hdt.le)
  · show raw_p_grid
      (raw_e_in cfg .sample (raw_p_batt cfg (some Op.discharge) load limit))
      (raw_e_out cfg .sample (raw_p_batt cfg (some Op.discharge) load limit))
      ≤ 0
    unfold raw_p_grid
    rw [if_pos hdt, hz2, zero_sub, neg_div]
    exact neg_nonpos.mpr (div_nonneg
      (raw_e_out_nonneg cfg .sample _ he) hdt.le)

/-- A discharge point whose load is at or below the reserve produces the
all-zero quantity bundle. -/
theorem raw_pq_discharge_zero (cfg : Step15Cfg) (load limit : ℚ)
    (hlr : load - cfg.reserve_discharge_kw ≤ 0) :
    raw_pq cfg (some Op.discharge) load limit = ⟨0, 0, 0, 0, 0, 0, 0⟩ := by
  have hpb0 : raw_p_batt cfg (some Op.discharge) load limit = 0 := by
    simp only [raw_p_batt]
    rw [max_eq_right hlr]
    split_ifs with h
    · rw [min_eq_left h.le, neg_zero]
    · exact neg_zero
  unfold raw_pq
  rw [hpb0]
  simp [raw_e_in, raw_e_out, raw_p_grid, dt_hours]

/-! ## C5 - no-reverse-feed-in clipping -/

/-- After no-reverse-feed-in clipping of a point with positive load, the
discharge grid power of each formula is bounded by the clipping ceiling
`max(load - reserve, 0)` plus the 1e-6 tolerance - whatever the input
quantities are. -/
theorem no_reverse_clip_bound (cfg : Step15Cfg) (load : ℚ) (q : PQ)
    (hl : 0 < load) :
    -(no_reverse_clip cfg load q).p_grid_phys ≤
      max (load - cfg.reserve_discharge_kw) 0 + eps6 ∧
    -(no_reverse_clip cfg load q).p_grid_sample ≤
      max (load - cfg.reserve_discharge_kw) 0 + eps6 := by
  have heps : (0 : ℚ) < eps6 := by norm_num [eps6]
  have hrhs : (0 : ℚ) ≤ max (load - cfg.reserve_discharge_kw) 0 + eps6 := by
    have := le_max_right (load - cfg.reserve_discharge_kw) 0
    linarith
  have hp : -q.p_grid_phys ≤ max (max (-q.p_grid_phys) (-q.p_grid_sample)) 0 :=
    le_trans (le_max_left _ _) (le_max_left _ 0)
  have hs : -q.p_grid_sample ≤ max (max (-q.p_grid_phys) (-q.p_grid_sample)) 0 :=
    le_trans (le_max_right _ _) (le_max_left _ 0)
  unfold no_reverse_clip
  dsimp only
  rw [if_pos hl]
  by_cases h2 : 0 < max (max (-q.p_grid_phys) (-q.p_grid_sample)) 0
  case neg =>
    rw [if_neg h2]
    push_neg at h2
    constructor <;> linarith
  rw [if_pos h2]
  by_cases h3 : max (load - cfg.reserve_discharge_kw) 0 + eps6 <
      max (max (-q.p_grid_phys) (-q.p_grid_sample)) 0
  case neg =>
    rw [if_neg h3]
    push_neg at h3
    constructor <;> linarith
  rw [if_pos h3]
  set allowed := max (load - cfg.reserve_discharge_kw) 0 with hallowed
  have hall0 : 0 ≤ allowed := le_max_right _ 0
  set maxd := max (max (-q.p_grid_phys) (-q.p_grid_sample)) 0 with hmaxd
  set s0 := if 0 < allowed then allowed / maxd else (0 : ℚ) with hs0
  set s1 := if s0 < 0 then (0 : ℚ) else s0 with hs1
  have hs1v : s1 = s0 := by
    rw [hs1, if_neg]
    push_neg
    rw [hs0]
    split_ifs with h
    · exact div_nonneg (le_of_lt h) h2.le
    · exact le_rfl
  have hs1nn : 0 ≤ s1 := by
    rw [hs1v, hs0]
    split_ifs with h
    · exact div_nonneg (le_of_lt h) h2.le
    · exact le_rfl
  have hsmul : s1 * maxd ≤ allowed := by
    rw [hs1v, hs0]
    split_ifs with h
    · rw [div_mul_cancel₀ allowed (ne_of_gt h2)]
    · rw [zero_mul]
      exact hall0
  have hlt1 : s1 < 1 := by
    rw [hs1v, hs0]
    split_ifs with h
    · exact (div_lt_one h2).mpr (by linarith)
    · exact zero_lt_one
  rw [if_pos hlt1]
  constructor
  · show -(q.p_grid_phys * s1) ≤ allowed + eps6
    have : -(q.p_grid_phys * s1) = s1 * -q.p_grid_phys := by ring
    rw [this]
    calc s1 * -q.p_grid_phys ≤ s1 * maxd :=
        mul_le_mul_of_nonneg_left hp hs1nn
      _ ≤ allowed := hsmul
      _ ≤ allowed + eps6 := by linarith
  · show -(q.p_grid_sample * s1) ≤ allowed + eps6
    have : -(q.p_grid_sample * s1) = s1 * -q.p_grid_sample := by ring
    rw [this]
    calc s1 * -q.p_grid_sample ≤ s1 * maxd :=
        mul_le_mul_of_nonneg_left hs hs1nn
      _ ≤ allowed := hsmul
      _ ≤ allowed + eps6 := by linarith

/-- The record emitted for one point satisfies the no-reverse-feed-in
bound on both formulas' discharge grid power. -/
theorem sim_step_no_reverse (cfg : Step15Cfg)
    (dops : List (DateKey × List Op)) (targets : List (WKey × WTgt))
    (st : SimSt) (p : SimPoint) (he : 0 ≤ cfg.single_side_efficiency)
    (hres : 0 ≤ cfg.reserve_discharge_kw) :
    -(sim_step cfg dops targets st p).2.p_grid_effect_physics_kw ≤
      max ((sim_step cfg dops targets st p).2.load_kw -
        cfg.reserve_discharge_kw) 0 + eps6 ∧
    -(sim_step cfg dops targets st p).2.p_grid_effect_sample_kw ≤
      max ((sim_step cfg dops targets st p).2.load_kw -
        cfg.reserve_discharge_kw) 0 + eps6 := by
  have heps : (0 : ℚ) < eps6 := by norm_num [eps6]
  have hrhs : (0 : ℚ) ≤ max (p.load_kw - cfg.reserve_discharge_kw) 0 + eps6 := by
    have := le_max_right (p.load_kw - cfg.reserve_discharge_kw) 0
    linarith
  have hload : (sim_step cfg dops targets st p).2.load_kw = p.load_kw := rfl
  rw [hload]
  set op := op_for dops p with hop
  set limit := s15_day_limit cfg (p.date.1, p.date.2.1) with hlimit
  set q0 := raw_pq cfg op p.load_kw limit with hq0
  set q1 := transformer_clip cfg p.load_kw limit q0 with hq1
  set q2 := no_reverse_clip cfg p.load_kw q1 with hq2
  obtain ⟨s, hs0, hs1, hw⟩ := window_clamp_q_scale cfg targets st.wstate op
    (window_key targets p op) q2
  have hpg1 : (sim_step cfg dops targets st p).2.p_grid_effect_physics_kw =
      q2.p_grid_phys * s := by
    show (window_clamp cfg targets st.wstate op
      (window_key targets p op) q2).q.p_grid_phys = q2.p_grid_phys * s
    rw [hw]; rfl
  have hpg2 : (sim_step cfg dops targets st p).2.p_grid_effect_sample_kw =
      q2.p_grid_sample * s := by
    show (window_clamp cfg targets st.wstate op
      (window_key targets p op) q2).q.p_grid_sample = q2.p_grid_sample * s
    rw [hw]; rfl
  rw [hpg1, hpg2]
  by_cases hd : op = some Op.discharge
  · by_cases hl : 0 < p.load_kw
    · have hb := no_reverse_clip_bound cfg p.load_kw q1 hl
      rw [← hq2] at hb
      constructor
      · have : -(q2.p_grid_phys * s) = s * -q2.p_grid_phys := by ring
        rw [this]
        exact scale_le_bound _ _ s hb.1 hrhs hs0 hs1
      · have : -(q2.p_grid_sample * s) = s * -q2.p_grid_sample := by ring
        rw [this]
        exact scale_le_bound _ _ s hb.2 hrhs hs0 hs1
    · push_neg at hl
      have hzero : q0 = ⟨0, 0, 0, 0, 0, 0, 0⟩ := by
        rw [hq0, hd]
        exact raw_pq_discharge_zero cfg p.load_kw limit (by linarith)
      obtain ⟨t1, _, _, ht1⟩ := transformer_clip_scale cfg p.load_kw limit q0
      obtain ⟨t2, _, _, ht2⟩ := no_reverse_clip_scale cfg p.load_kw q1
      have hq2z : q2 = ⟨0, 0, 0, 0, 0, 0, 0⟩ := by
        rw [hq2, ht2, hq1, ht1, hzero]
        simp [scalePQ]
      rw [hq2z]
      constructor <;> simp <;> linarith
  · have hraw := raw_pq_charge_all cfg op p.load_kw limit hd he
    obtain ⟨t1, ht10, _, ht1⟩ := transformer_clip_scale cfg p.load_kw limit q0
    obtain ⟨t2, ht20, _, ht2⟩ := no_reverse_clip_scale cfg p.load_kw q1
    have hg1 : 0 ≤ q2.p_grid_phys := by
      rw [hq2, ht2, hq1, ht1]
      show 0 ≤ q0.p_grid_phys * t1 * t2
      exact mul_nonneg (mul_nonneg hraw.2.2.2.2.1 ht10) ht20
    have hg2 : 0 ≤ q2.p_grid_sample := by
      rw [hq2, ht2, hq1, ht1]
      show 0 ≤ q0.p_grid_sample * t1 * t2
      exact mul_nonneg (mul_nonneg hraw.2.2.2.2.2 ht10) ht20
    constructor
    · have hx : q2.p_grid_phys * s = s * q2.p_grid_phys := by ring
      nlinarith
    · nlinarith

/-- Every record of the chronological fold satisfies the no-reverse
bound. -/
theorem sim_go_no_reverse (cfg : Step15Cfg)
    (dops : List (DateKey × List Op)) (targets : List (WKey × WTgt))
    (he : 0 ≤ cfg.single_side_efficiency)
    (hres : 0 ≤ cfg.reserve_discharge_kw) :
    ∀ (pts : List SimPoint) (st : SimSt),
      ∀ r ∈ sim_go cfg dops targets st pts,
        -r.p_grid_effect_physics_kw ≤
          max (r.load_kw - cfg.reserve_discharge_kw) 0 + eps6 ∧
        -r.p_grid_effect_sample_kw ≤
          max (r.load_kw - cfg.reserve_discharge_kw) 0 + eps6 := by
  intro pts
  induction pts with
  | nil => intro st r hr; simp [sim_go] at hr
  | cons p rest ih =>
      intro st r hr
      rcases List.mem_cons.mp hr with rfl | hr'
      · exact sim_step_no_reverse cfg dops targets st p he hres
      · exact ih _ r hr'

/-- C5 amended: at every point of the simulation (with nonnegative
efficiency and nonnegative discharge reserve), each formula's discharge
grid power never exceeds `max(load - reserve_discharge, 0) + 1e-6`;
equivalently, the grid-visible load `load - discharge_power` never drops
below `min(load, reserve_discharge) - 1e-6`. -/
theorem step15_no_reverse_feed_in (cfg : Step15Cfg)
    (dops : List (DateKey × List Op)) (rows : List WinDebugRow)
    (pts : List SimPoint) (he : 0 ≤ cfg.single_side_efficiency)
    (hres : 0 ≤ cfg.reserve_discharge_kw) :
    ∀ r ∈ build_step15_power_series cfg dops rows pts,
      -r.p_grid_effect_physics_kw ≤
        max (r.load_kw - cfg.reserve_discharge_kw) 0 + eps6 ∧
      -r.p_grid_effect_sample_kw ≤
        max (r.load_kw - cfg.reserve_discharge_kw) 0 + eps6 :=
  sim_go_no_reverse cfg dops (build_window_targets rows) he hres pts
    { soc := s15_init_soc cfg, wstate := [] }

/-! ## C1 - per-window cumulative clamp -/

theorem afind_mem {κ ν : Type} [DecidableEq κ] (l : List (κ × ν)) (k : κ)
    (v : ν) (h : afind l k = some v) : (k, v) ∈ l := by
  unfold afind at h
  cases hf : l.find? (fun e => e.1 = k) with
  | none => rw [hf] at h; cases h
  | some e =>
      rw [hf] at h
      have hm := List.mem_of_find?_eq_some hf
      have hp := List.find?_some hf
      simp only [decide_eq_true_eq] at hp
      simp only [Option.map_some', Option.some.injEq] at h
      have : e = (k, v) := by
        obtain ⟨e1, e2⟩ := e
        simp only at hp h
        rw [hp, h]
      rw [← this]
      exact hm

theorem aupdate_mem {κ ν : Type} [DecidableEq κ] (l : List (κ × ν)) (k : κ)
    (v : ν) (e : κ × ν) (h : e ∈ aupdate l k v) :
    (e.1 = k ∧ e.2 = v) ∨ e ∈ l := by
  unfold aupdate at h
  simp only [List.mem_map] at h
  obtain ⟨x, hx, hxe⟩ := h
  by_cases hk : x.1 = k
  · rw [if_pos hk] at hxe
    left
    rw [← hxe]
    exact ⟨hk, rfl⟩
  · rw [if_neg hk] at hxe
    right
    rw [← hxe]
    exact hx

theorem pyOrOne_pos (x : ℚ) (h : 0 ≤ x) : 0 < pyOrOne x := by
  unfold pyOrOne
  split_ifs with h0
  · exact zero_lt_one
  · exact lt_of_le_of_ne h (Ne.symm h0)

theorem target_full_nonneg (targets : List (WKey × WTgt)) (k : WKey)
    (hfull : ∀ e ∈ targets, 0 ≤ e.2.full_ratio_main) :
    0 ≤ target_full targets k := by
  unfold target_full
  cases hf : afind targets k with
  | none => exact zero_le_one
  | some t => exact hfull (k, t) (afind_mem targets k t hf)

theorem charge_target_spec_pos (cfg : Step15Cfg) (targets : List (WKey × WTgt))
    (k : WKey) (hcap : 0 < cfg.capacity_kwh) (hdod : 0 < s15_eff_dod cfg)
    (hfull : ∀ e ∈ targets, 0 ≤ e.2.full_ratio_main) :
    0 < charge_target_spec cfg targets k := by
  unfold charge_target_spec
  have h9 : (0 : ℚ) < eps9 := by norm_num [eps9]
  have hmax : 0 < max cfg.single_side_efficiency eps9 :=
    lt_of_lt_of_le h9 (le_max_right _ _)
  exact div_pos (mul_pos (mul_pos hcap
    (pyOrOne_pos _ (target_full_nonneg targets k hfull))) hdod) hmax

theorem discharge_target_spec_pos (cfg : Step15Cfg)
    (targets : List (WKey × WTgt)) (k : WKey) (hcap : 0 < cfg.capacity_kwh)
    (hdod : 0 < s15_eff_dod cfg) (heta : 0 < cfg.single_side_efficiency)
    (hfull : ∀ e ∈ targets, 0 ≤ e.2.full_ratio_main) :
    0 < discharge_target_spec cfg targets k := by
  unfold discharge_target_spec
  exact mul_pos (mul_pos (mul_pos hcap
    (pyOrOne_pos _ (target_full_nonneg targets k hfull))) hdod) heta

/-- A window key is only resolved for charge or discharge points. -/
theorem window_key_op (targets : List (WKey × WTgt)) (p : SimPoint)
    (op : Option Op) (k : WKey) (h : window_key targets p op = some k) :
    op = some Op.charge ∨ op = some Op.discharge := by
  cases op with
  | none =>
      exfalso
      unfold window_key at h
      cases hf : targets.find? (fun kt => decide (kt.1.1 = p.date) && false) with
      | none => rw [hf] at h; cases h
      | some e =>
          have := List.find?_some hf
          simp at this
  | some o =>
      cases o with
      | charge => exact Or.inl rfl
      | discharge => exact Or.inr rfl
      | standby =>
          exfalso
          unfold window_key at h
          cases hf : targets.find?
              (fun kt => decide (kt.1.1 = p.date) && false) with
          | none => rw [hf] at h; cases h
          | some e =>
              have := List.find?_some hf
              simp at this

theorem WInv_mono (cfg : Step15Cfg) (targets : List (WKey × WTgt))
    (n m : Nat) (ws : List (WKey × WSt)) (h : WInv cfg targets n ws)
    (hnm : n ≤ m) : WInv cfg targets m ws := by
  intro e he
  obtain ⟨h1, h2, h3, h4⟩ := h e he
  have h9 : (0 : ℚ) ≤ eps9 := by norm_num [eps9]
  have hc : (n : ℚ) * eps9 ≤ (m : ℚ) * eps9 :=
    mul_le_mul_of_nonneg_right (Nat.cast_le.mpr hnm) h9
  exact ⟨h1, h2, by linarith, by linarith⟩

theorem e_in_main_nonneg_of (f : EnergyFormula) (q : PQ)
    (h1 : 0 ≤ q.e_in_phys) (h2 : 0 ≤ q.e_in_sample) : 0 ≤ e_in_main f q := by
  cases f
  · exact h1
  · exact h2

theorem e_out_main_nonneg_of (f : EnergyFormula) (q : PQ)
    (h1 : 0 ≤ q.e_out_phys) (h2 : 0 ≤ q.e_out_sample) :
    0 ≤ e_out_main f q := by
  cases f
  · exact h1
  · exact h2

theorem e_in_main_zero_of (f : EnergyFormula) (q : PQ)
    (h1 : q.e_in_phys = 0) (h2 : q.e_in_sample = 0) : e_in_main f q = 0 := by
  cases f
  · exact h1
  · exact h2

theorem e_out_main_zero_of (f : EnergyFormula) (q : PQ)
    (h1 : q.e_out_phys = 0) (h2 : q.e_out_sample = 0) : e_out_main f q = 0 := by
  cases f
  · exact h1
  · exact h2

/-- Shape of the main-formula energies of the clipped bundle fed into the
window clamp: nonnegative, with the direction opposite to the op equal to
zero. -/
theorem clipped_e_mains (cfg : Step15Cfg) (op : Option Op) (load limit : ℚ)
    (he : 0 ≤ cfg.single_side_efficiency) :
    0 ≤ e_in_main cfg.energy_formula
      (no_reverse_clip cfg load
        (transformer_clip cfg load limit (raw_pq cfg op load limit))) ∧
    0 ≤ e_out_main cfg.energy_formula
      (no_reverse_clip cfg load
        (transformer_clip cfg load limit (raw_pq cfg op load limit))) ∧
    (op = some Op.charge → e_out_main cfg.energy_formula
      (no_reverse_clip cfg load
        (transformer_clip cfg load limit (raw_pq cfg op load limit))) = 0) ∧
    (op = some Op.discharge → e_in_main cfg.energy_formula
      (no_reverse_clip cfg load
        (transformer_clip cfg load limit (raw_pq cfg op load limit))) = 0) := by
  set q0 := raw_pq cfg op load limit with hq0
  obtain ⟨t1, ht10, _, ht1⟩ := transformer_clip_scale cfg load limit q0
  obtain ⟨t2, ht20, _, ht2⟩ :=
    no_reverse_clip_scale cfg load (transformer_clip cfg load limit q0)
  rw [ht2, ht1, scalePQ_comp]
  rw [e_in_main_scalePQ, e_out_main_scalePQ]
  have hs : 0 ≤ t1 * t2 := mul_nonneg ht10 ht20
  by_cases hd : op = some Op.discharge
  · have hr := raw_pq_discharge_all cfg load limit he
    rw [hq0, hd]
    refine ⟨?_, ?_, ?_, ?_⟩
    · rw [e_in_main_zero_of _ _ hr.1 hr.2.1, zero_mul]
    · exact mul_nonneg (e_out_main_nonneg_of _ _ hr.2.2.1 hr.2.2.2.1) hs
    · intro hc; simp at hc
    · intro _; rw [e_in_main_zero_of _ _ hr.1 hr.2.1, zero_mul]
  · have hr := raw_pq_charge_all cfg op load limit hd he
    refine ⟨?_, ?_, ?_, ?_⟩
    · exact mul_nonneg (e_in_main_nonneg_of _ _ hr.1 hr.2.1) hs
    · rw [e_out_main_zero_of _ _ hr.2.2.1 hr.2.2.2.1, zero_mul]
    · intro _; rw [e_out_main_zero_of _ _ hr.2.2.1 hr.2.2.2.1, zero_mul]
    · intro hdis; exact absurd hdis hd

/-- One clamp-and-accumulate step: the stored targets are unchanged and
each total grows by at most its remaining room plus one 1e-9
tolerance. -/
theorem wst_next_bounds (f : EnergyFormula) (op : Option Op) (st : WSt)
    (q : PQ) (hctpos : 0 < st.charge_target)
    (hdtpos : 0 < st.discharge_target)
    (hin : 0 ≤ e_in_main f q) (hout : 0 ≤ e_out_main f q)
    (hinz : op = some Op.discharge → e_in_main f q = 0)
    (houtz : op = some Op.charge → e_out_main f q = 0)
    (hopor : op = some Op.charge ∨ op = some Op.discharge) :
    (wst_next f op st q).charge_target = st.charge_target ∧
    (wst_next f op st q).discharge_target = st.discharge_target ∧
    (wst_next f op st q).charged ≤ max st.charge_target st.charged + eps9 ∧
    (wst_next f op st q).discharged ≤
      max st.discharge_target st.discharged + eps9 := by
  have h9 : (0 : ℚ) ≤ eps9 := by norm_num [eps9]
  refine ⟨rfl, rfl, ?_, ?_⟩
  all_goals
    rcases hopor with hc | hd
  -- charge op, charged bound
  · have hq2 : clamp_q2 f op st q =
        clampBy (max (st.charge_target - st.charged) 0) (e_in_main f q) q := by
      unfold clamp_q2
      dsimp only
      rw [if_neg (show ¬ (op = some Op.discharge ∧ st.discharge_target ≠ 0)
        by simp [hc])]
      rw [if_pos (show op = some Op.charge ∧ st.charge_target ≠ 0 from
        ⟨hc, ne_of_gt hctpos⟩)]
    show st.charged + e_in_main f (clamp_q2 f op st q) ≤
      max st.charge_target st.charged + eps9
    rw [hq2]
    have hcl := clampBy_e_in_le f (max (st.charge_target - st.charged) 0) q
      (le_max_right _ 0)
    rcases le_total (st.charge_target - st.charged) 0 with hle | hle
    · rw [max_eq_right hle] at hcl ⊢
      have := le_max_right st.charge_target st.charged
      linarith
    · rw [max_eq_left hle] at hcl ⊢
      have := le_max_left st.charge_target st.charged
      linarith
  -- discharge op, charged bound
  · have hq2 : clamp_q2 f op st q =
        clampBy (max (st.discharge_target - st.discharged) 0)
          (e_out_main f q) q := by
      unfold clamp_q2
      dsimp only
      rw [if_pos (show op = some Op.discharge ∧ st.discharge_target ≠ 0 from
        ⟨hd, ne_of_gt hdtpos⟩)]
      rw [if_neg (show ¬ (op = some Op.charge ∧ st.charge_target ≠ 0)
        by simp [hd])]
    show st.charged + e_in_main f (clamp_q2 f op st q) ≤
      max st.charge_target st.charged + eps9
    obtain ⟨s, hs0, hs1, hsc⟩ :=
      clampBy_scale (max (st.discharge_target - st.discharged) 0)
        (e_out_main f q) q (le_max_right _ 0)
    rw [hq2, hsc, e_in_main_scalePQ, hinz hd, zero_mul, add_zero]
    have := le_max_right st.charge_target st.charged
    linarith
  -- charge op, discharged bound
  · have hq2 : clamp_q2 f op st q =
        clampBy (max (st.charge_target - st.charged) 0) (e_in_main f q) q := by
      unfold clamp_q2
      dsimp only
      rw [if_neg (show ¬ (op = some Op.discharge ∧ st.discharge_target ≠ 0)
        by simp [hc])]
      rw [if_pos (show op = some Op.charge ∧ st.charge_target ≠ 0 from
        ⟨hc, ne_of_gt hctpos⟩)]
    show st.discharged + e_out_main f (clamp_q2 f op st q) ≤
      max st.discharge_target st.discharged + eps9
    obtain ⟨s, hs0, hs1, hsc⟩ :=
      clampBy_scale (max (st.charge_target - st.charged) 0)
        (e_in_main f q) q (le_max_right _ 0)
    rw [hq2, hsc, e_out_main_scalePQ, houtz hc, zero_mul, add_zero]
    have := le_max_right st.discharge_target st.discharged
    linarith
  -- discharge op, discharged bound
  · have hq2 : clamp_q2 f op st q =
        clampBy (max (st.discharge_target - st.discharged) 0)
          (e_out_main f q) q := by
      unfold clamp_q2
      dsimp only
      rw [if_pos (show op = some Op.discharge ∧ st.discharge_target ≠ 0 from
        ⟨hd, ne_of_gt hdtpos⟩)]
      rw [if_neg (show ¬ (op = some Op.charge ∧ st.charge_target ≠ 0)
        by simp [hd])]
    show st.discharged + e_out_main f (clamp_q2 f op st q) ≤
      max st.discharge_target st.discharged + eps9
    rw [hq2]
    have hcl := clampBy_e_out_le f (max (st.discharge_target - st.discharged) 0)
      q (le_max_right _ 0)
    rcases le_total (st.discharge_target - st.discharged) 0 with hle | hle
    · rw [max_eq_right hle] at hcl ⊢
      have := le_max_right st.discharge_target st.discharged
      linarith
    · rw [max_eq_left hle] at hcl ⊢
      have := le_max_left st.discharge_target st.discharged
      linarith

/-- The state read back for a window carries the spec targets and totals
within the invariant bound. -/
theorem wst_get_facts (cfg : Step15Cfg) (targets : List (WKey × WTgt))
    (ws : List (WKey × WSt)) (k : WKey) (n : Nat)
    (hInv : WInv cfg targets n ws) (hcap : 0 < cfg.capacity_kwh)
    (hdod : 0 < s15_eff_dod cfg) (heta : 0 < cfg.single_side_efficiency)
    (hfull : ∀ e ∈ targets, 0 ≤ e.2.full_ratio_main) :
    (wst_get cfg targets ws k).charge_target =
      charge_target_spec cfg targets k ∧
    (wst_get cfg targets ws k).discharge_target =
      discharge_target_spec cfg targets k ∧
    (wst_get cfg targets ws k).charged ≤
      charge_target_spec cfg targets k + n * eps9 ∧
    (wst_get cfg targets ws k).discharged ≤
      discharge_target_spec cfg targets k + n * eps9 := by
  have h9 : (0 : ℚ) ≤ eps9 := by norm_num [eps9]
  have hn9 : (0 : ℚ) ≤ n * eps9 := mul_nonneg (Nat.cast_nonneg n) h9
  unfold wst_get
  cases hf : afind ws k with
  | some s =>
      obtain ⟨h1, h2, h3, h4⟩ := hInv (k, s) (afind_mem ws k s hf)
      exact ⟨h1, h2, by rw [← h1]; exact h3, by rw [← h2]; exact h4⟩
  | none =>
      refine ⟨rfl, rfl, ?_, ?_⟩
      · show (0 : ℚ) ≤ charge_target_spec cfg targets k + n * eps9
        have := charge_target_spec_pos cfg targets k hcap hdod hfull
        linarith
      · show (0 : ℚ) ≤ discharge_target_spec cfg targets k + n * eps9
        have := discharge_target_spec_pos cfg targets k hcap hdod heta hfull
        linarith

/-- Writing a state that satisfies the (n+1)-bound back into the dict
preserves the invariant. -/
theorem ws_put_inv (cfg : Step15Cfg) (targets : List (WKey × WTgt)) (n : Nat)
    (ws : List (WKey × WSt)) (k : WKey) (st2 : WSt)
    (hInv : WInv cfg targets n ws)
    (h1 : st2.charge_target = charge_target_spec cfg targets k)
    (h2 : st2.discharge_target = discharge_target_spec cfg targets k)
    (h3 : st2.charged ≤ st2.charge_target + ((n + 1 : ℕ) : ℚ) * eps9)
    (h4 : st2.discharged ≤ st2.discharge_target + ((n + 1 : ℕ) : ℚ) * eps9) :
    WInv cfg targets (n + 1) (ws_put ws k st2) := by
  have hmono := WInv_mono cfg targets n (n + 1) ws hInv (Nat.le_succ n)
  unfold ws_put
  cases hf : afind ws k with
  | some s =>
      intro e he
      rcases aupdate_mem ws k st2 e he with ⟨hek, hev⟩ | hel
      · rw [hev, hek]
        exact ⟨h1, h2, h3, h4⟩
      · exact hmono e hel
  | none =>
      intro e he
      rcases List.mem_append.mp he with hel | her
      · exact hmono e hel
      · rw [List.mem_singleton.mp her]
        exact ⟨h1, h2, h3, h4⟩

/-- The per-window clamp preserves the invariant (with one more
tolerance) and the emitted cumulative totals and targets obey the spec
targets. -/
theorem window_clamp_invariant (cfg : Step15Cfg)
    (targets : List (WKey × WTgt)) (ws : List (WKey × WSt)) (op : Option Op)
    (wk : Option WKey) (q : PQ) (n : Nat)
    (heta : 0 < cfg.single_side_efficiency)
    (hfull : ∀ e ∈ targets, 0 ≤ e.2.full_ratio_main)
    (hInv : WInv cfg targets n ws)
    (hin : 0 ≤ e_in_main cfg.energy_formula q)
    (hout : 0 ≤ e_out_main cfg.energy_formula q)
    (hinz : op = some Op.discharge → e_in_main cfg.energy_formula q = 0)
    (houtz : op = some Op.charge → e_out_main cfg.energy_formula q = 0)
    (hwk : ∀ k, wk = some k →
      op = some Op.charge ∨ op = some Op.discharge) :
    WInv cfg targets (n + 1) (window_clamp cfg targets ws op wk q).wstate ∧
    ∀ k, wk = some k →
      (∀ tc, (window_clamp cfg targets ws op wk q).charge_target = some tc →
        tc = charge_target_spec cfg targets k) ∧
      (∀ td, (window_clamp cfg targets ws op wk q).discharge_target =
        some td → td = discharge_target_spec cfg targets k) ∧
      (∀ cc, (window_clamp cfg targets ws op wk q).cum_charge = some cc →
        cc ≤ charge_target_spec cfg targets k + (n + 1) * eps9) ∧
      (∀ cd, (window_clamp cfg targets ws op wk q).cum_discharge = some cd →
        cd ≤ discharge_target_spec cfg targets k + (n + 1) * eps9) := by
  have h9 : (0 : ℚ) ≤ eps9 := by norm_num [eps9]
  cases wk with
  | none =>
      refine ⟨WInv_mono cfg targets n (n + 1) ws hInv (Nat.le_succ n), ?_⟩
      intro k hk
      simp at hk
  | some k0 =>
      unfold window_clamp
      dsimp only
      by_cases hg : 0 < cfg.capacity_kwh ∧ 0 < s15_eff_dod cfg
      case neg =>
        rw [if_neg hg]
        refine ⟨WInv_mono cfg targets n (n + 1) ws hInv (Nat.le_succ n), ?_⟩
        intro k hk
        refine ⟨?_, ?_, ?_, ?_⟩ <;> intro x hx <;> cases hx
      rw [if_pos hg]
      obtain ⟨hcap, hdod⟩ := hg
      have hget := wst_get_facts cfg targets ws k0 n hInv hcap hdod heta hfull
      have hctpos : 0 < (wst_get cfg targets ws k0).charge_target := by
        rw [hget.1]
        exact charge_target_spec_pos cfg targets k0 hcap hdod hfull
      have hdtpos : 0 < (wst_get cfg targets ws k0).discharge_target := by
        rw [hget.2.1]
        exact discharge_target_spec_pos cfg targets k0 hcap hdod heta hfull
      have hnext := wst_next_bounds cfg.energy_formula op
        (wst_get cfg targets ws k0) q hctpos hdtpos hin hout hinz houtz
        (hwk k0 rfl)
      have hcast : ((n + 1 : ℕ) : ℚ) = (n : ℚ) + 1 := by push_cast; ring
      have hbc : (wst_next cfg.energy_formula op (wst_get cfg targets ws k0)
          q).charged ≤ charge_target_spec cfg targets k0 + (n + 1) * eps9 := by
        have hm : max (wst_get cfg targets ws k0).charge_target
            (wst_get cfg targets ws k0).charged ≤
            charge_target_spec cfg targets k0 + n * eps9 := by
          apply max_le
          · rw [hget.1]
            have : (0 : ℚ) ≤ n * eps9 := mul_nonneg (Nat.cast_nonneg n) h9
            linarith
          · exact hget.2.2.1
        have := hnext.2.2.1
        linarith
      have hbd : (wst_next cfg.energy_formula op (wst_get cfg targets ws k0)
          q).discharged ≤
          discharge_target_spec cfg targets k0 + (n + 1) * eps9 := by
        have hm : max (wst_get cfg targets ws k0).discharge_target
            (wst_get cfg targets ws k0).discharged ≤
            discharge_target_spec cfg targets k0 + n * eps9 := by
          apply max_le
          · rw [hget.2.1]
            have : (0 : ℚ) ≤ n * eps9 := mul_nonneg (Nat.cast_nonneg n) h9
            linarith
          · exact hget.2.2.2
        have := hnext.2.2.2
        linarith
      constructor
      · exact ws_put_inv cfg targets n ws k0 _ hInv
          (hnext.1.trans hget.1) (hnext.2.1.trans hget.2.1)
          (by rw [hnext.1.trans hget.1, hcast]; exact hbc)
          (by rw [hnext.2.1.trans hget.2.1, hcast]; exact hbd)
      · intro k hk
        obtain rfl : k0 = k := Option.some.inj hk
        refine ⟨?_, ?_, ?_, ?_⟩
        · intro tc htc
          obtain rfl : (wst_get cfg targets ws k0).charge_target = tc :=
            Option.some.inj htc
          exact hget.1
        · intro td htd
          obtain rfl : (wst_get cfg targets ws k0).discharge_target = td :=
            Option.some.inj htd
          exact hget.2.1
        · intro cc hcc
          obtain rfl : (wst_next cfg.energy_formula op
              (wst_get cfg targets ws k0) q).charged = cc :=
            Option.some.inj hcc
          exact hbc
        · intro cd hcd
          obtain rfl : (wst_next cfg.energy_formula op
              (wst_get cfg targets ws k0) q).discharged = cd :=
            Option.some.inj hcd
          exact hbd

/-- Along the chronological fold, every emitted record's cumulative
totals stay within the spec targets plus one tolerance per processed
point. -/
theorem sim_go_window_bound (cfg : Step15Cfg)
    (dops : List (DateKey × List Op)) (targets : List (WKey × WTgt))
    (heta : 0 < cfg.single_side_efficiency)
    (hfull : ∀ e ∈ targets, 0 ≤ e.2.full_ratio_main) :
    ∀ (pts : List SimPoint) (st : SimSt) (n : Nat),
      WInv cfg targets n st.wstate →
      ∀ r ∈ sim_go cfg dops targets st pts, ∀ k, r.win_key = some k →
        (∀ tc, r.charge_target_grid_main = some tc →
          tc = charge_target_spec cfg targets k) ∧
        (∀ td, r.discharge_target_grid_main = some td →
          td = discharge_target_spec cfg targets k) ∧
        (∀ cc, r.cum_charge_grid_main = some cc →
          cc ≤ charge_target_spec cfg targets k +
            ((n + pts.length : ℕ) : ℚ) * eps9) ∧
        (∀ cd, r.cum_discharge_grid_main = some cd →
          cd ≤ discharge_target_spec cfg targets k +
            ((n + pts.length : ℕ) : ℚ) * eps9) := by
  intro pts
  induction pts with
  | nil => intro st n hInv r hr; simp [sim_go] at hr
  | cons p rest ih =>
      intro st n hInv r hr k hk
      have h9 : (0 : ℚ) ≤ eps9 := by norm_num [eps9]
      have hem := clipped_e_mains cfg (op_for dops p) p.load_kw
        (s15_day_limit cfg (p.date.1, p.date.2.1)) heta.le
      have hwc := window_clamp_invariant cfg targets st.wstate
        (op_for dops p) (window_key targets p (op_for dops p))
        (no_reverse_clip cfg p.load_kw
          (transformer_clip cfg p.load_kw
            (s15_day_limit cfg (p.date.1, p.date.2.1))
            (raw_pq cfg (op_for dops p) p.load_kw
              (s15_day_limit cfg (p.date.1, p.date.2.1))))) n heta hfull hInv
        hem.1 hem.2.1 hem.2.2.2 hem.2.2.1
        (fun k' hk' => window_key_op targets p _ k' hk')
      have hcoef : ((n : ℚ) + 1) * eps9 ≤
          ((n + (p :: rest).length : ℕ) : ℚ) * eps9 := by
        apply mul_le_mul_of_nonneg_right _ h9
        push_cast
        simp only [List.length_cons]
        push_cast
        linarith [Nat.cast_nonneg (α := ℚ) rest.length]
      rcases List.mem_cons.mp hr with rfl | hr'
      · obtain ⟨ha, hb, hc, hd⟩ := hwc.2 k hk
        refine ⟨ha, hb, ?_, ?_⟩
        · intro cc hcc
          have := hc cc hcc
          linarith
        · intro cd hcd
          have := hd cd hcd
          linarith
      · have hih := ih ((sim_step cfg dops targets st p).1) (n + 1) hwc.1
          r hr' k hk
        have hlen : (n + 1) + rest.length = n + (p :: rest).length := by
          simp only [List.length_cons]
          omega
        rw [hlen] at hih
        exact hih

/-- C1 amended: with a positive efficiency and nonnegative parsed full
ratios, every record of the simulator that resolved to a window key
carries exactly the spec targets - capacity × (full_ratio, with 0.0
replaced by 1.0 per the source's `or 1.0`) × effective DOD, divided by
η for charge and multiplied by η for discharge - and its running
cumulative charge/discharge grid energy never exceeds that target beyond
a tolerance of 1e-9 per processed point. -/
theorem step15_window_cum_clamped (cfg : Step15Cfg)
    (dops : List (DateKey × List Op)) (rows : List WinDebugRow)
    (pts : List SimPoint) (heta : 0 < cfg.single_side_efficiency)
    (hfull : ∀ e ∈ build_window_targets rows, 0 ≤ e.2.full_ratio_main) :
    ∀ r ∈ build_step15_power_series cfg dops rows pts, ∀ k,
      r.win_key = some k →
      (∀ tc, r.charge_target_grid_main = some tc →
        tc = charge_target_spec cfg (build_window_targets rows) k) ∧
      (∀ td, r.discharge_target_grid_main = some td →
        td = discharge_target_spec cfg (build_window_targets rows) k) ∧
      (∀ cc, r.cum_charge_grid_main = some cc →
        cc ≤ charge_target_spec cfg (build_window_targets rows) k +
          (pts.length : ℚ) * eps9) ∧
      (∀ cd, r.cum_discharge_grid_main = some cd →
        cd ≤ discharge_target_spec cfg (build_window_targets rows) k +
          (pts.length : ℚ) * eps9) := by
  intro r hr k hk
  have h0 : WInv cfg (build_window_targets rows) 0 [] := by
    intro e he
    exact absurd he (List.not_mem_nil e)
  have hres := sim_go_window_bound cfg dops (build_window_targets rows) heta
    hfull pts { soc := s15_init_soc cfg, wstate := [] } 0 h0 r hr k hk
  simpa using hres

set_option maxRecDepth 8000 in
/-- C1 counterexample to the claim as stated: with debug rows whose
parsed per-window full_ratio is 0 (a window whose discharge side has no
allowed power, as the pipeline produces), the simulator records a
cumulative charge energy of 12.5 kWh against a full_ratio-derived target
of 0 kWh - the `or 1.0` of line 2345 replaces the zero ratio by 1.0, so
the zero target is never enforced. -/
theorem window_target_counterexample :
    target_full (build_window_targets
      [⟨(2024, 1, 1), "c1", "charge", [1], some 1, none⟩,
       ⟨(2024, 1, 1), "c1", "discharge", [10], some 0, none⟩])
      ((2024, 1, 1), "c1") = 0 ∧
    (build_step15_power_series
      { month_max := [((2024, 1), 200)], transformer_limit_kw := none,
        limit_mode := "monthly_demand_max", capacity_kwh := 100,
        c_rate := 1 / 2, single_side_efficiency := 9 / 10,
        depth_of_discharge := 9 / 10, soc_min := 1 / 20, soc_max := 19 / 20,
        reserve_charge_kw := 0, reserve_discharge_kw := 0,
        initial_soc := none, energy_formula := .physics }
      [((2024, 1, 1), (List.replicate 24 Op.standby).set 1 Op.charge)]
      [⟨(2024, 1, 1), "c1", "charge", [1], some 1, none⟩,
       ⟨(2024, 1, 1), "c1", "discharge", [10], some 0, none⟩]
      [⟨(2024, 1, 1), 1, 50⟩]).map
        (fun r => (r.cum_charge_grid_main, r.win_key)) =
      [(some (25 / 2), some ((2024, 1, 1), "c1"))] ∧
    (100 : ℚ) * 0 * (9 / 10) / max (9 / 10) eps9 + eps6 < 25 / 2 := by
  refine ⟨by with_unfolding_all decide, by with_unfolding_all decide, ?_⟩
  rw [max_eq_left (by norm_num [eps9])]
  norm_num [eps6]

/-- Witness for C1 amended on a one-point run whose single window has
full ratio 1. -/
theorem step15_window_cum_clamped_witness :
    (0 : ℚ) < 9 / 10 ∧
    (∀ e ∈ build_window_targets
      [⟨(2024, 1, 1), "c1", "charge", [1], some 1, none⟩],
      0 ≤ e.2.full_ratio_main) ∧
    ∀ r ∈ build_step15_power_series
      { month_max := [((2024, 1), 200)], transformer_limit_kw := none,
        limit_mode := "monthly_demand_max", capacity_kwh := 100,
        c_rate := 1 / 2, single_side_efficiency := 9 / 10,
        depth_of_discharge := 9 / 10, soc_min := 1 / 20, soc_max := 19 / 20,
        reserve_charge_kw := 0, reserve_discharge_kw := 0,
        initial_soc := none, energy_formula := .physics }
      [((2024, 1, 1), (List.replicate 24 Op.standby).set 1 Op.charge)]
      [⟨(2024, 1, 1), "c1", "charge", [1], some 1, none⟩]
      [⟨(2024, 1, 1), 1, 50⟩], ∀ k, r.win_key = some k →
      (∀ tc, r.charge_target_grid_main = some tc →
        tc = charge_target_spec
          { month_max := [((2024, 1), 200)], transformer_limit_kw := none,
            limit_mode := "monthly_demand_max", capacity_kwh := 100,
            c_rate := 1 / 2, single_side_efficiency := 9 / 10,
            depth_of_discharge := 9 / 10, soc_min := 1 / 20,
            soc_max := 19 / 20, reserve_charge_kw := 0,
            reserve_discharge_kw := 0, initial_soc := none,
            energy_formula := .physics }
          (build_window_targets
            [⟨(2024, 1, 1), "c1", "charge", [1], some 1, none⟩]) k) ∧
      (∀ td, r.discharge_target_grid_main = some td →
        td = discharge_target_spec
          { month_max := [((2024, 1), 200)], transformer_limit_kw := none,
            limit_mode := "monthly_demand_max", capacity_kwh := 100,
            c_rate := 1 / 2, single_side_efficiency := 9 / 10,
            depth_of_discharge := 9 / 10, soc_min := 1 / 20,
            soc_max := 19 / 20, reserve_charge_kw := 0,
            reserve_discharge_kw := 0, initial_soc := none,
            energy_formula := .physics }
          (build_window_targets
            [⟨(2024, 1, 1), "c1", "charge", [1], some 1, none⟩]) k) ∧
      (∀ cc, r.cum_charge_grid_main = some cc →
        cc ≤ charge_target_spec
          { month_max := [((2024, 1), 200)], transformer_limit_kw := none,
            limit_mode := "monthly_demand_max", capacity_kwh := 100,
            c_rate := 1 / 2, single_side_efficiency := 9 / 10,
            depth_of_discharge := 9 / 10, soc_min := 1 / 20,
            soc_max := 19 / 20, reserve_charge_kw := 0,
            reserve_discharge_kw := 0, initial_soc := none,
            energy_formula := .physics }
          (build_window_targets
            [⟨(2024, 1, 1), "c1", "charge", [1], some 1, none⟩]) k +
          (([⟨(2024, 1, 1), 1, 50⟩] : List SimPoint).length : ℚ) * eps9) ∧
      (∀ cd, r.cum_discharge_grid_main = some cd →
        cd ≤ discharge_target_spec
          { month_max := [((2024, 1), 200)], transformer_limit_kw := none,
            limit_mode := "monthly_demand_max", capacity_kwh := 100,
            c_rate := 1 / 2, single_side_efficiency := 9 / 10,
            depth_of_discharge := 9 / 10, soc_min := 1 / 20,
            soc_max := 19 / 20, reserve_charge_kw := 0,
            reserve_discharge_kw := 0, initial_soc := none,
            energy_formula := .physics }
          (build_window_targets
            [⟨(2024, 1, 1), "c1", "charge", [1], some 1, none⟩]) k +
          (([⟨(2024, 1, 1), 1, 50⟩] : List SimPoint).length : ℚ) * eps9) :=
  ⟨by norm_num, by with_unfolding_all decide,
   step15_window_cum_clamped _ _ _ _ (by norm_num)
     (by with_unfolding_all decide)⟩

/-- C5 counterexample to the claim as literally stated: at a discharge
point with load 100 kW and reserve 10 kW the recorded sample-formula
discharge grid power is 90 kW, so "load minus discharge grid power" is
10, strictly below "load minus reserve_discharge" = 90 even beyond the
clipping tolerance; the code's actual bound is the reserve itself, not
load minus reserve. -/
theorem no_reverse_literal_counterexample :
    (build_step15_power_series
      { month_max := [((2024, 1), 200)], transformer_limit_kw := none,
        limit_mode := "monthly_demand_max", capacity_kwh := 100, c_rate := 2,
        single_side_efficiency := 9 / 10, depth_of_discharge := 19 / 20,
        soc_min := 1 / 20, soc_max := 19 / 20, reserve_charge_kw := 0,
        reserve_discharge_kw := 10, initial_soc := some (19 / 20),
        energy_formula := .physics }
      [((2024, 1, 1), (List.replicate 24 Op.standby).set 10 Op.discharge)]
      [] [⟨(2024, 1, 1), 10, 100⟩]).map
        (fun r => (r.load_kw, r.p_grid_effect_sample_kw)) = [(100, -90)] ∧
    (100 : ℚ) - -(-90) < 100 - 10 - eps6 := by
  refine ⟨by with_unfolding_all decide, ?_⟩
  norm_num [eps6]

/-- Witness for C5 amended at a concrete one-point discharge run. -/
theorem step15_no_reverse_feed_in_witness :
    (0 : ℚ) ≤ 9 / 10 ∧ (0 : ℚ) ≤ 10 ∧
    ∀ r ∈ build_step15_power_series
      { month_max := [((2024, 1), 200)], transformer_limit_kw := none,
        limit_mode := "monthly_demand_max", capacity_kwh := 100, c_rate := 2,
        single_side_efficiency := 9 / 10, depth_of_discharge := 19 / 20,
        soc_min := 1 / 20, soc_max := 19 / 20, reserve_charge_kw := 0,
        reserve_discharge_kw := 10, initial_soc := some (19 / 20),
        energy_formula := .physics }
      [((2024, 1, 1), (List.replicate 24 Op.standby).set 10 Op.discharge)]
      [] [⟨(2024, 1, 1), 10, 100⟩],
      -r.p_grid_effect_physics_kw ≤ max (r.load_kw - 10) 0 + eps6 ∧
      -r.p_grid_effect_sample_kw ≤ max (r.load_kw - 10) 0 + eps6 :=
  ⟨by norm_num, by norm_num,
   step15_no_reverse_feed_in _ _ _ _ (by norm_num) (by norm_num)⟩

end TouCycles
